import Mathlib

/-!
Verification of the STOPS PRN extraction pipeline (CTPSSTAFF/stops-pipeline).

This development shallowly embeds the table-extraction engine of
src/extractor.py (class StopsPRNExtractor and the run_extraction driver).
A PRN document is modelled as a list of lines (strings without the trailing
newline); pandas DataFrames are modelled as ordered association lists of
named columns; a materialized fixed-width cell is an Option String, where
none models the NaN that pandas read_fwf produces for an all-blank field.
Python string operations (strip, split, lower, containment) and the concrete
regular expressions used by the extractor are implemented as executable
functions over character lists.
-/

namespace Stops

/-- Python str whitespace characters (ASCII subset used by .strip()). -/
def pySpace (c : Char) : Bool :=
  c = ' ' || c = '\t' || c = '\n' || c = '\r' || c = Char.ofNat 11 || c = Char.ofNat 12

/-- Drop leading whitespace of a character list. -/
def dropWs (l : List Char) : List Char := l.dropWhile pySpace

/-- Python str.strip() on a character list. -/
def stripL (l : List Char) : List Char :=
  ((l.dropWhile pySpace).reverse.dropWhile pySpace).reverse

/-- Python str.strip(). -/
def pyStrip (s : String) : String := ⟨stripL s.data⟩

/-- Python str.rstrip(). -/
def pyRstrip (s : String) : String := ⟨(s.data.reverse.dropWhile pySpace).reverse⟩

/-- Python str.lstrip(' -'), used on Route_Name columns. -/
def pyLstripDash (s : String) : String :=
  ⟨s.data.dropWhile (fun c => c = ' ' || c = '-')⟩

/-- ASCII lower-casing, modelling Python str.lower() on the report text. -/
def pyLower (s : String) : String := ⟨s.data.map Char.toLower⟩

/-- ASCII upper-casing, modelling Python str.upper(). -/
def pyUpper (s : String) : String := ⟨s.data.map Char.toUpper⟩

/-- Substring containment on character lists (Python `sub in s`). -/
def containsL (pat : List Char) : List Char → Bool
  | [] => pat.isPrefixOf []
  | c :: r => pat.isPrefixOf (c :: r) || containsL pat r

/-- Python `sub in s`. -/
def pyContains (s sub : String) : Bool := containsL sub.data s.data

/-- Python s.startswith(p). -/
def pyStartsWith (s p : String) : Bool := p.data.isPrefixOf s.data

/-- Generic regex-search loop: does the matcher accept at some position of the list? -/
def searchFrom (p : List Char → Bool) : List Char → Bool
  | [] => p []
  | c :: r => p (c :: r) || searchFrom p r

/-- Match at least one whitespace character, then let the matcher accept
(the backtracking semantics of a regex fragment of one-or-more whitespace). -/
def wsThen (p : List Char → Bool) : List Char → Bool
  | [] => false
  | c :: r => pySpace c && (p r || wsThen p r)

/-- Maximal leading run of decimal digits. -/
def takeDigits (l : List Char) : List Char := l.takeWhile Char.isDigit

/-- Matcher for the regex fragment of one-or-more digits, a dot, one-or-more digits. -/
def numDotNum (l : List Char) : Bool :=
  let d1 := takeDigits l
  let r := l.drop d1.length
  d1 ≠ [] &&
    (match r with
     | '.' :: r2 => takeDigits r2 ≠ []
     | _ => false)

/-- Model of re.search(r"Table\s+" ++ re.escape(table_id), line): a substring
search for the word Table, whitespace, then the literal table identifier. -/
def markerSearch (tid : String) (line : String) : Bool :=
  searchFrom
    (fun l => "Table".data.isPrefixOf l &&
      wsThen (fun r => tid.data.isPrefixOf r) (l.drop 5))
    line.data

/-- Model of re.search(r"Table\s+\d+\.\d+", line): any numbered table marker. -/
def markerAny (line : String) : Bool :=
  searchFrom
    (fun l => "Table".data.isPrefixOf l && wsThen numDotNum (l.drop 5))
    line.data

/-- Search for substring a followed (anywhere later) by substring b, the
regex `a.*b` as used in the header-anchor checks. -/
def containsSeq2 (a b : String) : List Char → Bool
  | [] => a.data.isPrefixOf [] && containsL b.data []
  | c :: r =>
      (a.data.isPrefixOf (c :: r) && containsL b.data ((c :: r).drop a.length)) ||
      containsSeq2 a b r

/-- Search for substrings a, b, c in order, the regex `a.*b.*c`. -/
def containsSeq3 (a b c : String) : List Char → Bool
  | [] => false
  | ch :: r =>
      (a.data.isPrefixOf (ch :: r) && containsSeq2 b c ((ch :: r).drop a.length)) ||
      containsSeq3 a b c r

/-- A full-line separator of two or more equals signs, re.fullmatch(r"={2,}", s). -/
def fullEqRun (s : String) : Bool := s.data.length ≥ 2 && s.data.all (· = '=')

/-- A full-line separator of two or more dashes, re.fullmatch(r"-{2,}", s). -/
def fullDashRun (s : String) : Bool := s.data.length ≥ 2 && s.data.all (· = '-')

/-- A full-line run of dashes or equals, re.fullmatch(r"[-=]{2,}", s). -/
def fullMixRun (s : String) : Bool :=
  s.data.length ≥ 2 && s.data.all (fun c => c = '-' || c = '=')

/-- re.search(r"^=+", line): the line starts with an equals sign. -/
def startsEq (s : String) : Bool := pyStartsWith s "="

/-- re.search(r"^={8,}", line): the line starts with eight equals signs. -/
def startsEq8 (s : String) : Bool := pyStartsWith s "========"

/-- Python s.split() - split on whitespace runs, dropping empty pieces. -/
def pyTokens (s : String) : List String :=
  ((s.data.splitOnP pySpace).map (fun l => (⟨l⟩ : String))).filter (· ≠ "")

/-- Split a character list on every occurrence of the non-empty separator
s0 :: sep (Python s.split(sep)); the accumulator holds the current piece
reversed, and the fuel argument (at least the list length) keeps the
recursion structural. -/
def splitOnL (s0 : Char) (sep : List Char) : Nat → List Char → List Char → List (List Char)
  | _, acc, [] => [acc.reverse]
  | 0, acc, l => [acc.reverse ++ l]
  | fuel + 1, acc, c :: r =>
      if (s0 :: sep).isPrefixOf (c :: r) then
        acc.reverse :: splitOnL s0 sep fuel [] (r.drop sep.length)
      else
        splitOnL s0 sep fuel (c :: acc) r

/-- Python s.split(sep) for a non-empty separator. -/
def pySplitOn (s sep : String) : List String :=
  match sep.data with
  | [] => [s]
  | c :: cs => (splitOnL c cs s.data.length [] s.data).map (fun l => ⟨l⟩)

/-- Python s.split(sep, 1). -/
def pySplitFirst (s sep : String) : List String :=
  match pySplitOn s sep with
  | [] => []
  | x :: rest => if rest = [] then [x] else [x, String.intercalate sep rest]

/-- Python s.replace(old, new) - replace every occurrence. -/
def pyReplace (s old new : String) : String :=
  if old = "" then s else String.intercalate new (pySplitOn s old)

/-! ## Numeric coercion

pd.to_numeric(..., errors='coerce') and Python float() are modelled by an
exact decimal parser.  A cell parsing to NaN is modelled as none (pandas
treats NaN as a missing value); the source never feeds the parser an
exponent form, and an infinity literal is likewise mapped to none.  The
carrier of a parsed float is a mantissa / power-of-ten pair; it is not
normalized, and no embedded operation ever compares two float cells, so
representational equality is never relied on as value equality. -/

/-- Digits of a numeral to a natural number. -/
def parseNat (l : List Char) : ℕ := l.foldl (fun a c => a * 10 + (c.toNat - 48)) 0

/-- Exact decimal: the value mant / 10 ^ exp10. -/
structure PyFloat where
  mant : ℤ
  exp10 : ℕ
deriving Repr, DecidableEq

/-- The float 0.0 used by fillna(0). -/
def PyFloat.zero : PyFloat := ⟨0, 0⟩

/-- Parse an optionally signed decimal literal (digits, optional point,
optional fraction digits), as accepted by pd.to_numeric.  Surrounding
whitespace is tolerated the way to_numeric tolerates it. -/
def pyDecimal (s : String) : Option PyFloat :=
  let l := stripL s.data
  let sgn : ℤ × List Char :=
    match l with
    | '-' :: r => (-1, r)
    | '+' :: r => (1, r)
    | r => (1, r)
  let intd := takeDigits sgn.2
  let r1 := sgn.2.drop intd.length
  match r1 with
  | [] => if intd = [] then none else some ⟨sgn.1 * (parseNat intd : ℤ), 0⟩
  | '.' :: r2 =>
      let fracd := takeDigits r2
      if r2.drop fracd.length ≠ [] then none
      else if intd = [] && fracd = [] then none
      else some ⟨sgn.1 * ((parseNat intd : ℤ) * (10 ^ fracd.length : ℕ) +
        (parseNat fracd : ℤ)), fracd.length⟩
  | _ => none

/-- Result of pd.to_numeric(cellText, errors='coerce'): a decimal, or none
for the NaN produced by a non-numeric cell. -/
def toNumericF (s : String) : Option PyFloat := pyDecimal s

/-- Does Python float(s) succeed?  True also for the nan / inf literals. -/
def pyFloatOK (s : String) : Bool :=
  (pyDecimal s).isSome ||
    (let l := stripL (pyLower s).data
     let l1 := match l with | '-' :: r => r | '+' :: r => r | r => r
     l1 = "nan".data || l1 = "inf".data || l1 = "infinity".data)

/-- numpy astype(int): truncation toward zero. -/
def ratTrunc (q : PyFloat) : ℤ := Int.tdiv q.mant ((10 ^ q.exp10 : ℕ) : ℤ)

/-! ## Cells and fixed-width materialization -/

/-- A materialized cell: none models the NaN pandas read_fwf produces for a
blank field; otherwise the field text with surrounding whitespace stripped. -/
abbrev Cell := Option String

/-- Series.str.strip().replace('', pd.NA): strip a cell and blank it to
missing when nothing remains. -/
def stripToNone (c : Cell) : Cell :=
  c.bind (fun s => let t := pyStrip s; if t = "" then none else some t)

/-- Python line[a:b]. -/
def pySlice (s : String) (a b : Nat) : String := ⟨(s.data.drop a).take (b - a)⟩

/-- One fixed-width field of a line, as pd.read_fwf(dtype=str) delivers it:
sliced by the colspec, stripped, and NaN (none) when blank. -/
def fwfCell (line : String) (spec : Nat × Nat) : Cell :=
  let f := pyStrip (pySlice line spec.1 spec.2)
  if f = "" then none else some f

/-- StopsPRNExtractor._generate_colspecs_from_widths: cumulative
(start, end) offsets from the catalog widths. -/
def colspecsGo (start : Nat) : List Nat → List (Nat × Nat)
  | [] => []
  | w :: r => (start, start + w) :: colspecsGo (start + w) r

/-- Colspecs from a width list (start offset 0). -/
def colspecsOfWidths (ws : List Nat) : List (Nat × Nat) := colspecsGo 0 ws

/-- pd.read_fwf(colspecs, names, dtype=str) over collected lines: an ordered
list of named columns of cells.  Short lines yield blank fields. -/
def materializeFwf (names : List String) (specs : List (Nat × Nat))
    (rows : List String) : List (String × List Cell) :=
  (names.zip specs).map (fun p => (p.1, rows.map (fun ln => fwfCell ln p.2)))

/-- pd.to_numeric(col.astype(str).str.replace(',', ''), errors='coerce')
.fillna(0).astype(int), the numeric coercion of the 9.01 / 10.01 / 10.05 /
11.XX extractors. -/
def coerceIntFill0 (c : Cell) : ℤ :=
  ratTrunc (((c.map (fun s => pyReplace s "," "")).bind toNumericF).getD PyFloat.zero)

/-- pd.to_numeric(col.astype(str).str.replace(',', ''), errors='coerce')
with no fillna, the numeric coercion of the 10.02 extractor: a bad cell
stays missing. -/
def coerceFComma (c : Cell) : Option PyFloat :=
  (c.map (fun s => pyReplace s "," "")).bind toNumericF

/-- pd.to_numeric(col, errors='coerce').fillna(0).astype(int) without the
comma strip, the numeric coercion of the 12.01 and district extractors. -/
def coerceIntFill0NC (c : Cell) : ℤ := ratTrunc ((c.bind toNumericF).getD PyFloat.zero)

/-! ## Forward fill (Series.ffill) -/

/-- Series.ffill with the last seen value as accumulator. -/
def ffillAux (acc : Option α) : List (Option α) → List (Option α)
  | [] => []
  | none :: r => acc :: ffillAux acc r
  | some v :: r => some v :: ffillAux (some v) r

/-- Series.ffill: fill missing entries with the nearest preceding present
value. -/
def ffill (l : List (Option α)) : List (Option α) := ffillAux none l

/-! ## Metadata harvester

StopsPRNExtractor._extract_metadata_from_prn (src/extractor.py lines
56-93).  The result is an Option because the fallback Version parse at
line 73 indexes split("Version: ")[1], which raises IndexError when the
line contains "Version:" without a trailing space; none models that
uncaught exception. -/

/-- The metadata block harvested before a table marker. -/
structure Meta where
  program : Option String := none
  version : Option String := none
  runName : Option String := none
  sysName : Option String := none
  page : Option String := none
deriving Repr, DecidableEq

/-- Match the fixed-shape date fragment of the Version regex,
two digits, a slash, two digits, a slash, four digits. -/
def matchDate : List Char → Bool
  | a :: b :: '/' :: c :: d :: '/' :: e :: f :: g :: h :: _ =>
      a.isDigit && b.isDigit && c.isDigit && d.isDigit &&
      e.isDigit && f.isDigit && g.isDigit && h.isDigit
  | _ => false

/-- Backtracking over the greedy token of the Version regex: try the k
longest prefixes of the non-space token t as the version group, requiring
a dash and then a date after optional whitespace. -/
def versionKLoop (t after : List Char) : Nat → Option (String × String)
  | 0 => none
  | k + 1 =>
      (match dropWs (t.drop (k + 1) ++ after) with
       | '-' :: r2 =>
          let r3 := dropWs r2
          if matchDate r3 then
            some ((⟨t.take (k + 1)⟩ : String), (⟨r3.take 10⟩ : String))
          else none
       | _ => none).orElse (fun _ => versionKLoop t after k)

/-- Attempt of re.search(r"Version:\s*(\S+)\s*-\s*(\d{2}/\d{2}/\d{4})")
directly after an occurrence of "Version:". -/
def tryVersionAt (r : List Char) : Option (String × String) :=
  let r1 := dropWs r
  let t := r1.takeWhile (fun c => !pySpace c)
  if t = [] then none else versionKLoop t (r1.drop t.length) t.length

/-- Search of the Version regex over a whole line: leftmost occurrence of
"Version:" whose suffix completes the pattern. -/
def versionSearch : List Char → Option (String × String)
  | [] => none
  | c :: r =>
      (if "Version:".data.isPrefixOf (c :: r) then tryVersionAt ((c :: r).drop 8)
       else none).orElse (fun _ => versionSearch r)

/-- re.search(r"Page\s+(\d+)"): leftmost "Page" followed by whitespace and
digits; returns the digit group. -/
def pageSearch : List Char → Option String
  | [] => none
  | c :: r =>
      (if "Page".data.isPrefixOf (c :: r) then
         let q := (c :: r).drop 4
         let w := q.takeWhile pySpace
         if w ≠ [] then
           let d := takeDigits (q.drop w.length)
           if d ≠ [] then some (⟨d⟩ : String) else none
         else none
       else none).orElse (fun _ => pageSearch r)

/-- The always-matching regex r"^(.*?)(?:\s+System:\s*(.*))?$" applied to
the text after "Run:": the lazy first group stops at the first whitespace
run followed by "System:"; the second group is the remainder after optional
whitespace, or none when no System clause exists. -/
def runSystemGo (pre : List Char) : List Char → String × Option String
  | [] => ((⟨pre.reverse⟩ : String), none)
  | c :: r =>
      if pySpace c then
        let w := (c :: r).takeWhile pySpace
        let q := (c :: r).drop w.length
        if "System:".data.isPrefixOf q then
          ((⟨pre.reverse⟩ : String), some (⟨dropWs (q.drop 7)⟩ : String))
        else runSystemGo (c :: pre) r
      else runSystemGo (c :: pre) r

/-- One iteration of the metadata loop body on an already stripped line:
the Program / Version / Run / Page elif chain.  none models the IndexError
of the fallback Version parse. -/
def metaLineUpdate (m : Meta) (ml : String) : Option Meta :=
  if pyContains ml "Program STOPS" then
    let pvp := pySplitFirst ml " - "
    let m1 := { m with program := some (pyStrip (pyReplace (pvp.headD "") "Program " "")) }
    match pvp with
    | _ :: p1 :: _ =>
        if pyContains p1 "Version:" then
          match versionSearch p1.data with
          | some vd => some { m1 with version := some (vd.1 ++ " - " ++ vd.2) }
          | none =>
              match (pySplitOn p1 "Version: ").get? 1 with
              | none => none
              | some tl =>
                  some { m1 with version := some (pyStrip ((pySplitOn tl " - ").headD "")) }
        else some m1
    | _ => some m1
  else if pyContains ml "Version:" then
    match versionSearch ml.data with
    | some vd => some { m with version := some (vd.1 ++ " - " ++ vd.2) }
    | none => some m
  else if pyContains ml "Run:" then
    match (pySplitOn ml "Run:").get? 1 with
    | none => some m
    | some p1 =>
        let rs := runSystemGo [] (pyStrip p1).data
        let m1 := { m with runName := some (pyStrip rs.1) }
        match rs.2 with
        | some sv => if sv ≠ "" then some { m1 with sysName := some (pyStrip sv) } else some m1
        | none => some m1
  else if pyContains ml "Page" then
    match pageSearch ml.data with
    | some d => some { m with page := some d }
    | none => some m
  else some m

/-- The nine offsets of the metadata window, scanned from the marker
backwards (offset 1 is the line directly above the marker). -/
def metaOffsets : List Nat := [1, 2, 3, 4, 5, 6, 7, 8, 9]

/-- One step of the metadata window loop at offset o: update from the line
above the marker when the window index is in range. -/
def metaStep (lines : List String) (i : Nat) (mo : Option Meta) (o : Nat) : Option Meta :=
  mo.bind (fun m =>
    if o ≤ i then metaLineUpdate m (pyStrip (lines.getD (i - o) "")) else some m)

/-- StopsPRNExtractor._extract_metadata_from_prn: fold the elif chain over
the up-to-nine lines preceding the marker at index i, nearest line first. -/
def extractMetadata (lines : List String) (i : Nat) : Option Meta :=
  metaOffsets.foldl (metaStep lines i) (some {})

/-! ## Extracted tables

An extracted DataFrame is an ordered association list of named columns; a
value is a string cell, a coerced integer, or a float cell that may be
missing.  The empty list models the empty pd.DataFrame() returned on every
failure path. -/

/-- One typed value of an extracted table. -/
inductive PVal where
  | s : Option String → PVal
  | i : ℤ → PVal
  | q : Option PyFloat → PVal
deriving Repr, DecidableEq

/-- An extracted table: ordered named columns. -/
abbrev PTable := List (String × List PVal)

/-- Number of rows (length of the first column). -/
def PTable.rowCount : PTable → Nat
  | [] => 0
  | (_, cs) :: _ => cs.length

/-- df.empty: no rows. -/
def PTable.isEmpty (t : PTable) : Bool := t.rowCount = 0

/-- Number of columns. -/
def PTable.colCount (t : PTable) : Nat := t.length

/-- Column lookup (Python df[name]; none models the KeyError on a missing
column label). -/
def getColD (raw : List (String × List Cell)) (nm : String) : Option (List Cell) :=
  (raw.find? (fun p => p.1 = nm)).map (fun p => p.2)

/-! ## Catalog (prn_table_format_structure.json)

A CatalogEntry models one item of the JSON array; a missing key is an
Option none, so that the KeyError / TypeError paths of the source are the
none cases of resolveCols. -/

/-- One column dict of a catalog entry; none fields model missing keys. -/
structure FwfColDef where
  colName : Option String := none
  colWidth : Option Nat := none
deriving Repr, DecidableEq

/-- One catalog item for a table_id. -/
structure CatalogEntry where
  formatType : Option String := none
  extractionFunction : Option String := none
  columns : Option (List FwfColDef) := none
deriving Repr, DecidableEq

/-- The loaded catalog: table_id to entry. -/
abbrev Catalog := String → Option CatalogEntry

/-- names and widths from a catalog entry, as read by every static-format
extractor; none models the KeyError / TypeError caught at the
"Invalid 'columns' format" guard. -/
def resolveCols (cat : Catalog) (tid : String) : Option (List (String × Nat)) :=
  match cat tid with
  | none => none
  | some e =>
      match e.columns with
      | none => none
      | some cds => cds.mapM (fun cd =>
          match cd.colName, cd.colWidth with
          | some n, some w => some (n, w)
          | _, _ => none)

/-! ## Row collectors

The per-family data-collection loops, each over the lines following the
data-start index. -/

/-- Collection loop of _extract_table_9_01 / 10_01 / 10_03_04 / 10_05: a
line containing "Total" is appended and terminates collection; a next
table marker or page header terminates without appending; blank lines and
separator art are skipped. -/
def collect1001 : List String → List String
  | [] => []
  | l :: rest =>
      if pyContains l "Total" then [pyRstrip l]
      else if markerAny l || (pyStrip l ≠ "" && pyContains l "Program STOPS") then []
      else if pyStrip l ≠ "" && !fullEqRun (pyStrip l) && !fullDashRun (pyStrip l) then
        pyRstrip l :: collect1001 rest
      else collect1001 rest

/-- Collection loop of _extract_table_10_02 (src/extractor.py lines
270-280): stops only on a next table marker or page header; blank lines
and separator art are skipped; a "Total" line is collected and does not
terminate. -/
def collect1002 : List String → List String
  | [] => []
  | l :: rest =>
      if markerAny l || pyContains l "Program STOPS" then []
      else if pyStrip l = "" || fullMixRun (pyStrip l) then collect1002 rest
      else l :: collect1002 rest

/-- Collection loop of _extract_table_12_01 (src/extractor.py lines
577-583): a line whose stripped text starts with "Total" terminates
collection without being appended. -/
def collect1201 : List String → List String
  | [] => []
  | l :: rest =>
      if pyStartsWith (pyStrip l) "Total" then []
      else if markerAny l || (pyStrip l ≠ "" && pyContains l "Program STOPS") then []
      else if pyStrip l ≠ "" then pyRstrip l :: collect1201 rest
      else collect1201 rest

/-- Collection loop of _extract_table_10_06 (src/extractor.py lines
487-490): a blank line, a line containing "Total", a dotted footer line or
a next table marker terminates collection, the Total line excluded. -/
def collect1006 : List String → List String
  | [] => []
  | l :: rest =>
      if pyStrip l = "" || pyContains l "Total" ||
         pyStartsWith (⟨dropWs l.data⟩ : String) "." || markerAny l then []
      else l :: collect1006 rest

/-! ## Scanners (marker, header anchor, separator) -/

/-- Scanner loop shared by the 9.01 / 10.01 / 10.02 / 10.03-04 / 10.05
extractors: every marker hit re-harvests metadata; once inside the table
section, a header-anchor line immediately followed by an all-equals
separator fixes the data start two lines below.  none models a metadata
IndexError. -/
def scanAnchorGo (tid : String) (anchor : String → Bool) (lines : List String) :
    Nat → Bool → Meta → List String → Option (Option Nat × Meta)
  | _, _, m, [] => some (none, m)
  | i, inT, m, l :: rest =>
      (if markerSearch tid l then extractMetadata lines i else some m).bind (fun m' =>
        let inT' := inT || markerSearch tid l
        if inT' && anchor l && decide (i + 1 < lines.length) &&
           startsEq (lines.getD (i + 1) "") then
          some (some (i + 2), m')
        else scanAnchorGo tid anchor lines (i + 1) inT' m' rest)

/-- Locate marker, header anchor and separator; the returned index is the
first data line. -/
def scanAnchor (tid : String) (anchor : String → Bool) (lines : List String) :
    Option (Option Nat × Meta) :=
  scanAnchorGo tid anchor lines 0 false {} lines

/-- Scanner loop of _extract_table_12_01: after the marker, the first line
starting with eight equals signs; data starts on the next line. -/
def scan1201Go (tid : String) (lines : List String) :
    Nat → Bool → Meta → List String → Option (Option Nat × Meta)
  | _, _, m, [] => some (none, m)
  | i, inT, m, l :: rest =>
      (if markerSearch tid l then extractMetadata lines i else some m).bind (fun m' =>
        let inT' := inT || markerSearch tid l
        if inT' && startsEq8 l then some (some (i + 1), m')
        else scan1201Go tid lines (i + 1) inT' m' rest)

/-- Locate the 12.01 data start. -/
def scan1201 (tid : String) (lines : List String) : Option (Option Nat × Meta) :=
  scan1201Go tid lines 0 false {} lines

/-! ## Extractor for Tables 9.01 / 10.01 family (static catalog layout)

_extract_table_10_01_from_prn, src/extractor.py lines 160-226. -/

/-- The label / identifier column names excluded from numeric coercion in
_extract_table_10_01_from_prn (line 220). -/
def labels1001 : List String :=
  ["Route_ID", "Route_Name", "Station_Name", "Stop_id1",
   "Group_Name", "HH_Cars", "Sub_mode", "Access_mode"]

/-- Column typing of the 10.01 extractor: strip every column, coerce the
non-label columns to integers with blank / bad cells defaulted to zero. -/
def convert1001 (raw : List (String × List Cell)) : PTable :=
  raw.map (fun p =>
    if p.1 ∈ labels1001 then (p.1, p.2.map (fun c => PVal.s (c.map pyStrip)))
    else (p.1, p.2.map (fun c => PVal.i (coerceIntFill0 (c.map pyStrip)))))

/-- Replace the last entry of a column. -/
def setLast (col : List PVal) (v : PVal) : List PVal :=
  if col = [] then col else col.take (col.length - 1) ++ [v]

/-- The 10.01 trailing-Total test: non-empty table, a Route_Name column,
and its last cell a present string equal to "total" case-insensitively. -/
def lastRouteNameTotal (t : PTable) : Bool :=
  match (t.find? (fun p => p.1 = "Route_Name")).map (fun p => p.2) with
  | some cells =>
      match cells.getLast? with
      | some (PVal.s (some s)) => pyLower (pyStrip s) = "total"
      | _ => false
  | none => false

/-- The 10.01 trailing-Total fixup (src/extractor.py lines 223-226): when
the last Route_Name is a case-insensitive total, rewrite the last
Route_Name and Route_ID cells to the literal "Total" (df.at creates the
Route_ID column when absent). -/
def totalFix1001 (t : PTable) : PTable :=
  if lastRouteNameTotal t then
    let t1 := t.map (fun p =>
      if p.1 = "Route_Name" || p.1 = "Route_ID" then
        (p.1, setLast p.2 (PVal.s (some "Total")))
      else p)
    if t.any (fun p => p.1 = "Route_ID") then t1
    else t1 ++ [("Route_ID",
      List.replicate (t.rowCount - 1) (PVal.s none) ++ [PVal.s (some "Total")])]
  else t

/-- The header anchor of Table 10.01:
re.search(r"Route_ID.*WLK.*KNR", line) or re.search(r"Route_ID", line). -/
def anchor1001 (l : String) : Bool :=
  containsSeq3 "Route_ID" "WLK" "KNR" l.data || pyContains l "Route_ID"

/-- StopsPRNExtractor._extract_table_10_01_from_prn.  none models an
uncaught exception; the empty table on every failure path mirrors the
returned empty DataFrame. -/
def extract1001 (lines : List String) (tid : String) (cat : Catalog) :
    Option (PTable × Meta) :=
  (scanAnchor tid anchor1001 lines).bind (fun sm =>
    match sm.1 with
    | none => some ([], sm.2)
    | some start =>
        match resolveCols cat tid with
        | none => some ([], sm.2)
        | some cols =>
            let names := cols.map (fun c => c.1)
            let specs := colspecsOfWidths (cols.map (fun c => c.2))
            let collected := collect1001 (lines.drop start)
            if collected = [] then some ([], sm.2)
            else some (totalFix1001 (convert1001 (materializeFwf names specs collected)), sm.2))

/-! ## Extractor for Table 10.02 (hierarchical route groups)

_extract_table_10_02_from_prn, src/extractor.py lines 228-312. -/

/-- Route_ID cleanup of 10.02 (line 289):
df["Route_ID"].str.strip().replace('', pd.NA).ffill(). -/
def fillRouteID1002 (col : List Cell) : List Cell := ffill (col.map stripToNone)

/-- Seed of the synthesized Route_Name column (line 290): a Group_Name
cell beginning with "--" and missing otherwise. -/
def routeNameSeed1002 (g : Cell) : Cell :=
  match g with
  | some s => if pyStartsWith s "--" then some s else none
  | none => none

/-- Route_Name synthesis of 10.02 (line 290): seed then forward-fill. -/
def fillRouteName1002 (gcol : List Cell) : List Cell := ffill (gcol.map routeNameSeed1002)

/-- Group_Name cleanup of 10.02 (lines 291-292): blank the "--" rows, then
strip and blank empty strings to missing. -/
def groupClean1002 (gcol : List Cell) : List Cell :=
  (gcol.map (fun c =>
    if (c.map (fun s => pyStartsWith s "--")).getD false then none else c)).map stripToNone

/-- col.str.lower().str.strip() == 'total' on one cell (missing compares
unequal). -/
def isTotalCell (c : Cell) : Bool :=
  (c.map (fun s => pyStrip (pyLower s))) = some "total"

/-- Total normalization of 10.02 (src/extractor.py lines 294-299): rows
whose Route_ID is a case-insensitive total get Route_Name "Total"; rows
whose Group_Name is a case-insensitive total get Group_Name and Route_Name
"Total".  Route_ID itself is left as is.  Returns the rewritten
(Route_Name, Group_Name) columns. -/
def totalNormalize1002 (rid rname gname : List Cell) : List Cell × List Cell :=
  let rname1 := (rid.zip rname).map (fun p => if isTotalCell p.1 then some "Total" else p.2)
  let gname1 := gname.map (fun c => if isTotalCell c then some "Total" else c)
  let rname2 := (gname.zip rname1).map (fun p => if isTotalCell p.1 then some "Total" else p.2)
  (rname2, gname1)

/-- Post-processing of the materialized 10.02 table: hierarchy cleanup,
total normalization, column reorder to Route_ID, Route_Name, Group_Name
then the dynamic columns, and numeric coercion of the dynamic columns
with no fillna.  none models the KeyError when the catalog lacks the
Route_ID or Group_Name column. -/
def post1002 (names : List String) (raw : List (String × List Cell)) : Option PTable :=
  match getColD raw "Route_ID", getColD raw "Group_Name" with
  | some rid0, some gn0 =>
      let rid := fillRouteID1002 rid0
      let rn := fillRouteName1002 gn0
      let gn := groupClean1002 gn0
      let tn := totalNormalize1002 rid rn gn
      let dynNames := names.filter (fun n =>
        !(n = "Route_ID" || n = "Route_Name" || n = "Group_Name"))
      some (("Route_ID", rid.map PVal.s) ::
            ("Route_Name", tn.1.map PVal.s) ::
            ("Group_Name", tn.2.map PVal.s) ::
            dynNames.filterMap (fun n => (getColD raw n).map (fun col =>
              (n, col.map (fun c => PVal.q (coerceFComma c))))))
  | _, _ => none

/-- The header anchor of Table 10.02: re.search(r"Route_ID.*Count", line). -/
def anchor1002 (l : String) : Bool := containsSeq2 "Route_ID" "Count" l.data

/-- StopsPRNExtractor._extract_table_10_02_from_prn. -/
def extract1002 (lines : List String) (tid : String) (cat : Catalog) :
    Option (PTable × Meta) :=
  (scanAnchor tid anchor1002 lines).bind (fun sm =>
    match sm.1 with
    | none => some ([], sm.2)
    | some start =>
        match resolveCols cat tid with
        | none => some ([], sm.2)
        | some cols =>
            let names := cols.map (fun c => c.1)
            let specs := colspecsOfWidths (cols.map (fun c => c.2))
            let collected := collect1002 (lines.drop start)
            if collected = [] then some ([], sm.2)
            else
              match post1002 names (materializeFwf names specs collected) with
              | none => none
              | some t => some (t, sm.2))

/-! ## Extractor for Table 12.01 (district summary)

_extract_table_12_01_from_prn, src/extractor.py lines 540-597. -/

/-- Column typing of the 12.01 extractor: strip everything, coerce all but
the District column to integers with zero default and no comma strip. -/
def convert1201 (raw : List (String × List Cell)) : PTable :=
  raw.map (fun p =>
    if p.1 = "District" then (p.1, p.2.map (fun c => PVal.s (c.map pyStrip)))
    else (p.1, p.2.map (fun c => PVal.i (coerceIntFill0NC (c.map pyStrip)))))

/-- StopsPRNExtractor._extract_table_12_01_from_prn. -/
def extract1201 (lines : List String) (tid : String) (cat : Catalog) :
    Option (PTable × Meta) :=
  (scan1201 tid lines).bind (fun sm =>
    match sm.1 with
    | none => some ([], sm.2)
    | some start =>
        match resolveCols cat tid with
        | none => some ([], sm.2)
        | some cols =>
            let names := cols.map (fun c => c.1)
            let specs := colspecsOfWidths (cols.map (fun c => c.2))
            let collected := collect1201 (lines.drop start)
            if collected = [] then some ([], sm.2)
            else some (convert1201 (materializeFwf names specs collected), sm.2))

/-! ## Extractor for matrix-style district tables

_extract_district_table, src/extractor.py lines 678-759.  The catalog is
never consulted by this extractor. -/

/-- Scanner loop of the district extractor: marker, then the first line
whose stripped text starts with "Idist" becomes the header, then the first
all-equals separator fixes the data start. -/
def scanDistrictGo (tid : String) (lines : List String) :
    Nat → Bool → Option String → Meta → List String →
    Option (Option Nat × Option String × Meta)
  | _, _, hdr, m, [] => some (none, hdr, m)
  | i, inT, hdr, m, l :: rest =>
      (if markerSearch tid l then extractMetadata lines i else some m).bind (fun m' =>
        let inT' := inT || markerSearch tid l
        let hdr' := if inT' && hdr = none && pyStartsWith (pyStrip l) "Idist"
                    then some l else hdr
        if hdr' ≠ none && startsEq (pyStrip l) then some (some (i + 1), hdr', m')
        else scanDistrictGo tid lines (i + 1) inT' hdr' m' rest)

/-- Locate the district header and data start. -/
def scanDistrict (tid : String) (lines : List String) :
    Option (Option Nat × Option String × Meta) :=
  scanDistrictGo tid lines 0 false none {} lines

/-- Header tokens of a district table: header_line.strip().split() with the
leading Idist / District token renamed Origin_District; none models the
IndexError on an empty header. -/
def districtHeaders (hdr : String) : Option (List String) :=
  match pyTokens (pyStrip hdr) with
  | [] => none
  | h :: rest =>
      if pyLower h = "idist" || pyLower h = "district" then
        some ("Origin_District" :: rest)
      else some (h :: rest)

/-- Data collection of the district extractor (lines 724-728): a blank line
or a stripped line starting with "Total" terminates without being kept;
every kept line is stripped. -/
def collectDistrict : List String → List String
  | [] => []
  | l :: rest =>
      if pyStartsWith (pyStrip l) "Total" || pyStrip l = "" then []
      else pyStrip l :: collectDistrict rest

/-- Whitespace-tokenized rows with more than one token (lines 734-738). -/
def districtParsedRows (collected : List String) : List (List String) :=
  (collected.map pyTokens).filter (fun p => p.length > 1)

/-- pd.DataFrame(rows, columns=...) semantics: the implied width is the
maximum row length and must equal the column count (else ValueError, the
none case); shorter rows are padded with NaN. -/
def mkDataFrameRows (rows : List (List String)) (ncols : Nat) :
    Option (List (List Cell)) :=
  if (rows.map List.length).foldl max 0 = ncols then
    some (rows.map (fun r => (List.range ncols).map (fun j => r.get? j)))
  else none

/-- Steps 4-6 of the district extractor over the resolved headers and
collected data lines: tokenize, drop single-token rows, truncate row data
when the header is shorter, build the frame, and coerce every column but
Origin_District to zero-defaulted integers.  No wide-to-long reshape takes
place. -/
def districtMaterialize (headers : List String) (collected : List String) :
    Option PTable :=
  let parsed := districtParsedRows collected
  if parsed = [] then some []
  else
    let n0 := (parsed.headD []).length
    let adj : List (List String) × Nat :=
      if headers.length < n0 then (parsed.map (List.take headers.length), headers.length)
      else (parsed, n0)
    match mkDataFrameRows adj.1 adj.2 with
    | none => none
    | some rows =>
        let cols := headers.take adj.2
        some ((List.range adj.2).map (fun j =>
          let nm := cols.getD j ""
          (nm, rows.map (fun r =>
            let c := r.getD j none
            if nm = "Origin_District" then PVal.s c
            else PVal.i (coerceIntFill0NC c)))))

/-- StopsPRNExtractor._extract_district_table. -/
def extractDistrict (lines : List String) (tid : String) :
    Option (PTable × Meta) :=
  (scanDistrict tid lines).bind (fun sm =>
    match sm.1, sm.2.1 with
    | some start, some hdr =>
        (districtHeaders hdr).bind (fun headers =>
          match districtMaterialize headers (collectDistrict (lines.drop start)) with
          | none => none
          | some t => some (t, sm.2.2))
    | _, _ => some ([], sm.2.2))

/-! ## Extractor for station-group tables

_extract_station_group_table, src/extractor.py lines 761-887.  The layout
is derived dynamically from one or two header lines above the separator. -/

/-- Scanner loop of the station-group extractor: at the first all-equals
(stripped) line inside the table section, record the separator index, the
one or two header lines above it, and whether a two-line header was
detected. -/
def scanStationGo (tid : String) (lines : List String) :
    Nat → Bool → Meta → List String →
    Option (Option (Nat × List String × Bool) × Meta)
  | _, _, m, [] => some (none, m)
  | i, inT, m, l :: rest =>
      (if markerSearch tid l then extractMetadata lines i else some m).bind (fun m' =>
        let inT' := inT || markerSearch tid l
        if inT' && startsEq (pyStrip l) then
          let hl1 : List String := if 0 < i then [lines.getD (i - 1) ""] else []
          let res : List String × Bool :=
            if 1 < i then
              let prev := pyStrip (lines.getD (i - 2) "")
              if prev ≠ "" && !startsEq prev && !pyContains prev "Group" &&
                 !pyContains prev "District" then
                (lines.getD (i - 2) "" :: hl1, true)
              else (hl1, false)
            else (hl1, false)
          some (some (i, res.1, res.2), m')
        else scanStationGo tid lines (i + 1) inT' m' rest)

/-- Locate the station-group separator and header lines. -/
def scanStation (tid : String) (lines : List String) :
    Option (Option (Nat × List String × Bool) × Meta) :=
  scanStationGo tid lines 0 false {} lines

/-- Header names from the recorded header lines (lines 803-812): for a
two-line header, the lower line's tokens then the upper line's surplus
tokens; for a single header line, its tokens without the leading label.
none models the IndexError on an empty header list. -/
def stationHeaders (hls : List String) (isTwo : Bool) : Option (List String) :=
  if isTwo then
    match hls with
    | h1 :: h2 :: _ =>
        some (pyTokens (pyStrip h2) ++ (pyTokens (pyStrip h1)).drop (pyTokens (pyStrip h2)).length)
    | _ => none
  else
    match hls with
    | h :: _ => some ((pyTokens (pyStrip h)).drop 1)
    | [] => none

/-- The stop prefixes terminating station-group data collection (lines
817-821): 2-WAY always; TOTAL, GOAL, COUNT except for table 2.04. -/
def stationStops (tid : String) : List String :=
  if tid = "2.04" then ["2-WAY"] else ["2-WAY", "TOTAL", "GOAL", "COUNT"]

/-- Index of the first whitespace token on which Python float() succeeds
after comma removal (lines 834-844). -/
def firstNumIdx (parts : List String) : Option Nat :=
  parts.findIdx? (fun p => pyFloatOK (pyReplace p "," ""))

/-- Parse one stripped station-group line into a row (lines 830-856): the
tokens before the first numeric token form the origin label, cleaned of a
leading run of digits, whitespace and dashes and of every colon; rows with
no numeric token or an empty label yield nothing. -/
def stationRowParse (st : String) : Option (List String) :=
  let parts := pyTokens st
  match firstNumIdx parts with
  | none => none
  | some idx =>
      let originRaw := String.intercalate " " (parts.take idx)
      let origin := pyStrip (pyReplace
        (⟨originRaw.data.dropWhile (fun c => c.isDigit || pySpace c || c = '-')⟩ : String)
        ":" "")
      if origin = "" then none else some (origin :: parts.drop idx)

/-- Station-group data collection from the line after the separator: stop
on a blank line, a stop-prefixed summary line or a page header; keep the
parseable rows. -/
def collectStationRows (tid : String) : List String → List (List String)
  | [] => []
  | l :: rest =>
      if pyStrip l = "" ||
         (stationStops tid).any (fun p => pyStartsWith (pyUpper (pyStrip l)) p) ||
         pyContains l "Program STOPS" then []
      else
        match stationRowParse (pyStrip l) with
        | some row => row :: collectStationRows tid rest
        | none => collectStationRows tid rest

/-- Steps 4-6 of the station-group extractor: frame the parsed rows at the
maximum row width, truncate both data and header names to the shorter of
data width and header count on a mismatch, coerce every column but
Origin_Group to zero-defaulted floats (a lone dash is missing first), and
drop rows with an empty origin. -/
def stationFinalize (headers : List String) (parsed : List (List String)) : PTable :=
  let w := (parsed.map List.length).foldl max 0
  let fh := "Origin_Group" :: headers
  let m := if w ≠ fh.length then min w fh.length else w
  let colNames := fh.take m
  let rows := parsed.map (fun r => (List.range m).map (fun j => r.get? j))
  let rowsF := rows.filter (fun r => r.headD none ≠ some "")
  (List.range m).map (fun j =>
    let nm := colNames.getD j ""
    (nm, rowsF.map (fun r =>
      let c := r.getD j none
      if nm = "Origin_Group" then PVal.s c
      else PVal.q (some
        (((if c = some "-" then none else c).bind toNumericF).getD PyFloat.zero)))))

/-- StopsPRNExtractor._extract_station_group_table. -/
def extractStation (lines : List String) (tid : String) :
    Option (PTable × Meta) :=
  (scanStation tid lines).bind (fun sm =>
    match sm.1 with
    | none => some ([], sm.2)
    | some sep =>
        (stationHeaders sep.2.1 sep.2.2).bind (fun headers =>
          let parsed := collectStationRows tid (lines.drop (sep.1 + 1))
          if parsed = [] then some ([], sm.2)
          else some (stationFinalize headers parsed, sm.2)))

/-! ## Catalog loading and the process-wide cache

StopsPRNExtractor._get_table_format_config (src/extractor.py lines 16-41).
The class attribute _format_config is the explicit state (Option Catalog,
none before the first call); the file system and JSON outcome of one load
attempt is a LoadOutcome. -/

/-- What one attempt to read the format-structure file would yield:
no configured path, a missing file, a JSON parse error, or the items of
the parsed array (the table_id of an item may be a missing key). -/
inductive LoadOutcome where
  | noPath
  | missingFile
  | parseError
  | ok (items : List (Option String × CatalogEntry))
deriving Repr, DecidableEq

/-- The empty mapping cached on every failure path. -/
def emptyCatalog : Catalog := fun _ => none

/-- The dict comprehension keyed by table_id: a later item overwrites an
earlier one with the same id. -/
def buildCatalog (items : List (Option String × CatalogEntry)) : Catalog :=
  items.foldl (fun acc kv s => if some s = kv.1 then some kv.2 else acc s) emptyCatalog

/-- Result of a first load: the failure paths and the KeyError on a
missing table_id key all collapse to the empty mapping (the except arm of
the source); otherwise the keyed dictionary. -/
def loadFormatConfig : LoadOutcome → Catalog
  | .noPath => emptyCatalog
  | .missingFile => emptyCatalog
  | .parseError => emptyCatalog
  | .ok items =>
      if items.any (fun kv => kv.1 = none) then emptyCatalog else buildCatalog items

/-- StopsPRNExtractor._get_table_format_config: return the cached mapping
if present, otherwise load once and cache whatever resulted.  Returns the
mapping and the new cache state. -/
def getTableFormatConfig (st : Option Catalog) (world : LoadOutcome) :
    Catalog × Option Catalog :=
  match st with
  | some c => (c, some c)
  | none => (loadFormatConfig world, some (loadFormatConfig world))

/-! ## Extraction registry and driver

get_extraction_method and run_extraction (src/extractor.py lines 889-968).
The reflective getattr over the extractor class is a parameter mapping a
function name to an embedded extraction function. -/

/-- The signature shared by the embedded extractors. -/
abbrev ExtractFn := List String → String → Catalog → Option (PTable × Meta)

/-- get_extraction_method: look up the table's catalog entry and its
extraction_function name, then resolve the name; any failure yields no
method (a warning in the source).  Also returns the catalog mapping and
cache state produced by the lookup. -/
def getExtractionMethod (methods : String → Option ExtractFn)
    (st : Option Catalog) (world : LoadOutcome) (tid : String) :
    Option ExtractFn × Catalog × Option Catalog :=
  let fc := getTableFormatConfig st world
  match fc.1 tid with
  | none => (none, fc.1, fc.2)
  | some e =>
      match e.extractionFunction with
      | none => (none, fc.1, fc.2)
      | some fname =>
          match methods fname with
          | some f => (some f, fc.1, fc.2)
          | none => (none, fc.1, fc.2)

/-- Observable events of a run: a missing source file, a table skipped for
want of an extraction method, a table whose extraction came back empty,
and a saved CSV. -/
inductive RunEvent where
  | fileMissing (al : String)
  | noMethod (tid : String)
  | emptyResult (tid : String)
  | saved (al tid : String) (t : PTable)
deriving Repr, DecidableEq

/-- The per-file table loop of run_extraction (lines 941-966): each
requested table_id is resolved and extracted; a missing method or an empty
result is logged and skipped, a non-empty table is saved; an uncaught
extractor exception (none) aborts the run. -/
def runTables (methods : String → Option ExtractFn) (world : LoadOutcome)
    (doc : List String) (al : String) :
    Option Catalog → List String → Option (List RunEvent × Option Catalog)
  | st, [] => some ([], st)
  | st, t :: ts =>
      let gm := getExtractionMethod methods st world t
      match gm.1 with
      | none =>
          (runTables methods world doc al gm.2.2 ts).map
            (fun p => (RunEvent.noMethod t :: p.1, p.2))
      | some f =>
          match f doc t gm.2.1 with
          | none => none
          | some r =>
              if r.1.isEmpty then
                (runTables methods world doc al gm.2.2 ts).map
                  (fun p => (RunEvent.emptyResult t :: p.1, p.2))
              else
                (runTables methods world doc al gm.2.2 ts).map
                  (fun p => (RunEvent.saved al t r.1 :: p.1, p.2))

/-- run_extraction over the configured files: a missing file is logged and
skipped, otherwise every requested table of the file is processed. -/
def runExtraction (methods : String → Option ExtractFn) (world : LoadOutcome)
    (tids : List String) :
    Option Catalog → List (String × Option (List String)) →
    Option (List RunEvent × Option Catalog)
  | st, [] => some ([], st)
  | st, f :: fs =>
      match f.2 with
      | none =>
          (runExtraction methods world tids st fs).map
            (fun p => (RunEvent.fileMissing f.1 :: p.1, p.2))
      | some doc =>
          (runTables methods world doc f.1 st tids).bind (fun p =>
            (runExtraction methods world tids p.2 fs).map
              (fun q => (p.1 ++ q.1, q.2)))

/-! ## Remaining embedded fragments and helper predicates -/

/-- Series.mask(col.eq('')): blank a cell that is exactly the empty string
(a missing cell stays missing). -/
def maskEmpty (c : Cell) : Cell := if c = some "" then none else c

/-- The HH_Cars / Sub_mode forward fill of _extract_table_11_XX_from_prn
(src/extractor.py lines 673-674):
col.mask(col.eq('')).ffill(). -/
def fillHHCars11XX (col : List Cell) : List Cell := ffill (col.map maskEmpty)

/-- Column lookup on an extracted table. -/
def getPCol (t : PTable) (nm : String) : Option (List PVal) :=
  (t.find? (fun p => p.1 = nm)).map (fun p => p.2)

/-- A line the 10.01-family collection loop keeps and passes through. -/
abbrev keeps1001 (l : String) : Prop :=
  pyContains l "Total" = false ∧ markerAny l = false ∧
  pyContains l "Program STOPS" = false ∧ pyStrip l ≠ "" ∧
  fullEqRun (pyStrip l) = false ∧ fullDashRun (pyStrip l) = false

/-- A line the 12.01 collection loop keeps and passes through. -/
abbrev keeps1201 (l : String) : Prop :=
  pyStartsWith (pyStrip l) "Total" = false ∧ markerAny l = false ∧
  pyContains l "Program STOPS" = false ∧ pyStrip l ≠ ""

/-- The stripped line the metadata harvester reads at offset o before the
marker at index i. -/
def lineAt (lines : List String) (i o : Nat) : String :=
  pyStrip (lines.getD (i - o) "")

/-- Sum of the integer cells of a table (the numeric mass of an extracted
district matrix). -/
def PTable.intSum (t : PTable) : ℤ :=
  (t.map (fun p => (p.2.map (fun v => match v with | PVal.i n => n | _ => 0)).sum)).sum

/-! ## Concrete inputs used by the counterexamples and witnesses -/

/-- A catalog holding only a well-formed 10.02 entry. -/
def cat1002C : Catalog := fun s =>
  if s = "10.02" then some ⟨some "fixed_width", some "_extract_table_10_02_from_prn",
    some [⟨some "Route_ID", some 10⟩, ⟨some "Group_Name", some 14⟩, ⟨some "Count", some 6⟩]⟩
  else none

/-- A 10.02 document: a sub-group row with a blank Route_ID and a
non-numeric Count cell, and a trailing upper-case TOTAL row. -/
def doc1002C : List String :=
  [ "Table 10.02 Weekday boardings by route",
    "Route_ID  Group_Name    Count",
    "==============================",
    "R1        G1                 5",
    "          G2                xx",
    "TOTAL                       10" ]

/-- A catalog holding only a well-formed 12.01 entry. -/
def cat1201C : Catalog := fun s =>
  if s = "12.01" then some ⟨some "fixed_width", some "_extract_table_12_01_from_prn",
    some [⟨some "District", some 10⟩, ⟨some "Y2024", some 8⟩]⟩
  else none

/-- A 12.01 document with one data row and a Total summary row. -/
def doc1201C : List String :=
  [ "Table 12.01 District summary",
    "District     Y2024",
    "========",
    "Boston         10",
    "Total          30" ]

/-- A district matrix document: two origins, two destinations. -/
def docDistC : List String :=
  [ "Table 12.03 District flows",
    "Idist     1     2",
    "=====",
    "1    10    20",
    "2    30    40",
    "Total 40 60" ]

/-- A station-group document whose header names one more column than the
data rows carry. -/
def docStatC : List String :=
  [ "Table 2.01 Station Group summary",
    "Group   WLK   KNR   PNR   ALL",
    "=====",
    "Bostn :  10   20   30",
    "" ]

/-- Two Run lines before a marker: offset 1 holds NEAR (closer to the
marker), offset 2 holds FAR (farther, earlier in the document). -/
def docMetaC : List String := ["Run: FAR", "Run: NEAR", "Table 9.01"]

/-- A ten-line document for the metadata-order witness: the marker at
index 9; Run setters at offsets 2 (line 7) and 5 (line 4); every other
window line matches no metadata pattern. -/
def docMetaW : List String :=
  ["plain0", "plain1", "plain2", "plain3", "Run: BBB",
   "plain5", "plain6", "Run: AAA", "plain8", "Table 9.01"]

/-- A catalog for the registry theorem: table 9.99 has an entry whose
columns key is missing; table 8.88 has no entry at all. -/
def catC9 : Catalog := fun s =>
  if s = "9.99" then some ⟨some "fixed_width", some "_extract_table_10_02_from_prn", none⟩
  else none

/-- The method table resolving only the 10.02 extractor name. -/
def methodsC9 : String → Option ExtractFn := fun n =>
  if n = "_extract_table_10_02_from_prn" then some extract1002 else none

/-! ## Lemmas about forward fill -/

theorem ffillAux_get_some {α : Type} :
    ∀ (l : List (Option α)) (acc : Option α) (i : Nat) (v : α),
      l.get? i = some (some v) → (ffillAux acc l).get? i = some (some v)
  | [], _, i, _, h => by cases i <;> simp_all
  | c :: r, acc, 0, v, h => by
      simp only [List.get?] at h
      cases c with
      | none => simp_all [ffillAux]
      | some w => simp_all [ffillAux]
  | c :: r, acc, i + 1, v, h => by
      simp only [List.get?] at h
      cases c with
      | none => simpa [ffillAux] using ffillAux_get_some r acc i v h
      | some w => simpa [ffillAux] using ffillAux_get_some r (some w) i v h

/-- When every entry up to and including index i is missing, the fill at i
is the accumulator. -/
theorem ffillAux_carry {α : Type} :
    ∀ (l : List (Option α)) (acc : Option α) (i : Nat),
      l.get? i = some none → (∀ k, k < i → l.get? k = some none) →
      (ffillAux acc l).get? i = some acc
  | [], _, i, h, _ => by cases i <;> simp_all
  | c :: r, acc, 0, h, _ => by
      have hc : c = none := by simpa using h
      subst hc
      simp [ffillAux]
  | c :: r, acc, i + 1, h, hk => by
      have h0 : c = none := by
        have := hk 0 (Nat.succ_pos i)
        simpa using this
      subst h0
      simp only [List.get?] at h
      have hk' : ∀ k, k < i → r.get? k = some none := fun k hki => by
        have := hk (k + 1) (Nat.succ_lt_succ hki)
        simpa using this
      simpa [ffillAux] using ffillAux_carry r acc i h hk'

theorem ffillAux_fill {α : Type} :
    ∀ (l : List (Option α)) (acc : Option α) (j i : Nat) (v : α),
      j < i → l.get? j = some (some v) → l.get? i = some none →
      (∀ k, j < k → k < i → l.get? k = some none) →
      (ffillAux acc l).get? i = some (some v)
  | [], _, j, i, v, _, hj, _, _ => by cases j <;> simp_all
  | c :: r, acc, 0, i, v, hij, hj, hi, hbet => by
      have hc : c = some v := by simpa using hj
      subst hc
      obtain ⟨i', rfl⟩ : ∃ i', i = i' + 1 := ⟨i - 1, by omega⟩
      have hi' : r.get? i' = some none := by simpa using hi
      have hbet' : ∀ k, k < i' → r.get? k = some none := fun k hki => by
        have := hbet (k + 1) (Nat.succ_pos k) (Nat.succ_lt_succ hki)
        simpa using this
      simpa [ffillAux] using ffillAux_carry r (some v) i' hi' hbet'
  | c :: r, acc, j + 1, i, v, hij, hj, hi, hbet => by
      obtain ⟨i', rfl⟩ : ∃ i', i = i' + 1 := ⟨i - 1, by omega⟩
      have hj' : r.get? j = some (some v) := by simpa using hj
      have hi' : r.get? i' = some none := by simpa using hi
      have hbet' : ∀ k, j < k → k < i' → r.get? k = some none := fun k h1 h2 => by
        have := hbet (k + 1) (Nat.succ_lt_succ h1) (Nat.succ_lt_succ h2)
        simpa using this
      cases c with
      | none =>
          simpa [ffillAux] using
            ffillAux_fill r acc j i' v (by omega) hj' hi' hbet'
      | some w =>
          simpa [ffillAux] using
            ffillAux_fill r (some w) j i' v (by omega) hj' hi' hbet'

theorem ffill_get_some {α : Type} (l : List (Option α)) (i : Nat) (v : α)
    (h : l.get? i = some (some v)) : (ffill l).get? i = some (some v) :=
  ffillAux_get_some l none i v h

theorem ffill_fill {α : Type} (l : List (Option α)) (j i : Nat) (v : α)
    (hij : j < i) (hj : l.get? j = some (some v)) (hi : l.get? i = some none)
    (hbet : ∀ k, j < k → k < i → l.get? k = some none) :
    (ffill l).get? i = some (some v) :=
  ffillAux_fill l none j i v hij hj hi hbet

/-- Claim C3: in the hierarchically normalized tables (the Route_ID fill of
Table 10.02 and the HH_Cars / Sub_mode fill of the 11.XX tables), a row
whose identifier cell is blank after stripping receives the nearest
preceding non-blank identifier, and forward-fill never changes a cell that
was non-blank: a present cell comes through unchanged. -/
theorem C3_forward_fill (col : List Cell) (j i : Nat) (v : String)
    (hij : j < i)
    (hi : (col.map stripToNone).get? i = some none)
    (hj : (col.map stripToNone).get? j = some (some v))
    (hbet : ∀ k, j < k → k < i → (col.map stripToNone).get? k = some none) :
    (fillRouteID1002 col).get? i = some (some v) ∧
    (∀ i' w, (col.map stripToNone).get? i' = some (some w) →
      (fillRouteID1002 col).get? i' = some (some w)) ∧
    (∀ (col2 : List Cell) (i2 : Nat) (c : Cell), col2.get? i2 = some c →
      c ≠ some "" → c ≠ none → (fillHHCars11XX col2).get? i2 = some c) ∧
    (∀ (col2 : List Cell) (j2 i2 : Nat) (w : String), j2 < i2 →
      (col2.map maskEmpty).get? i2 = some none →
      (col2.map maskEmpty).get? j2 = some (some w) →
      (∀ k, j2 < k → k < i2 → (col2.map maskEmpty).get? k = some none) →
      (fillHHCars11XX col2).get? i2 = some (some w)) := by
  refine ⟨ffill_fill _ j i v hij hj hi hbet,
          fun i' w h => ffill_get_some _ i' w h,
          fun col2 i2 c hc hne hnn => ?_,
          fun col2 j2 i2 w h1 h2 h3 h4 => ffill_fill _ j2 i2 w h1 h3 h2 h4⟩
  obtain ⟨w, rfl⟩ : ∃ w, c = some w := by
    cases c with
    | none => exact absurd rfl hnn
    | some w => exact ⟨w, rfl⟩
  have hm : (col2.map maskEmpty).get? i2 = some (some w) := by
    simp only [List.get?_eq_getElem?, List.getElem?_map] at hc ⊢
    rw [hc]
    simp [maskEmpty, hne]
  exact ffill_get_some _ i2 w hm

/-- Witness for C3_forward_fill: row 1 of a concrete Route_ID column is
blank and inherits row 0's identifier. -/
theorem C3_forward_fill_witness :
    (fillRouteID1002 [some "R1", none, some "TOTAL"]).get? 1 = some (some "R1") ∧
    (∀ i' w,
      (([some "R1", none, some "TOTAL"] : List Cell).map stripToNone).get? i' = some (some w) →
      (fillRouteID1002 [some "R1", none, some "TOTAL"]).get? i' = some (some w)) ∧
    (∀ (col2 : List Cell) (i2 : Nat) (c : Cell), col2.get? i2 = some c →
      c ≠ some "" → c ≠ none → (fillHHCars11XX col2).get? i2 = some c) ∧
    (∀ (col2 : List Cell) (j2 i2 : Nat) (w : String), j2 < i2 →
      (col2.map maskEmpty).get? i2 = some none →
      (col2.map maskEmpty).get? j2 = some (some w) →
      (∀ k, j2 < k → k < i2 → (col2.map maskEmpty).get? k = some none) →
      (fillHHCars11XX col2).get? i2 = some (some w)) :=
  C3_forward_fill [some "R1", none, some "TOTAL"] 0 1 "R1" (by decide) (by decide)
    (by decide) (by intro k h1 h2; omega)

/-! ## Claim C2: numeric defaulting -/

/-- Claim C2 counterexample: in the 10.02 extraction of doc1002C, the Count
cell whose raw text "xx" fails numeric parsing appears in the output as a
missing value (PVal.q none), not as 0. -/
theorem C2_counterexample :
    (extract1002 doc1002C "10.02" cat1002C).bind (fun r => getPCol r.1 "Count") =
      some [PVal.q (some ⟨5, 0⟩), PVal.q none, PVal.q (some ⟨10, 0⟩)] ∧
    PVal.q none ∈ [PVal.q (some (⟨5, 0⟩ : PyFloat)), PVal.q none, PVal.q (some ⟨10, 0⟩)] ∧
    toNumericF (pyReplace "xx" "," "") = none := by decide

/-- Claim C2 (amended): in every family except 10.02 a blank or
non-parseable numeric cell is coerced to 0 (the 10.01-family columns not on
the label list are all built with coerceIntFill0, which never yields a
missing value); in the 10.02 dynamic columns the same cell stays missing,
because its coercion has no fillna. -/
theorem C2_numeric_default (c : Cell)
    (hc : c = none ∨ ∃ s, c = some s ∧ toNumericF (pyReplace s "," "") = none) :
    coerceIntFill0 c = 0 ∧ coerceFComma c = none ∧
    (∀ (raw : List (String × List Cell)) (nm : String) (cells : List Cell),
      (nm, cells) ∈ raw → ¬ nm ∈ labels1001 →
      (nm, cells.map (fun x => PVal.i (coerceIntFill0 (x.map pyStrip)))) ∈ convert1001 raw) ∧
    (∀ (names : List String) (raw : List (String × List Cell)) (t : PTable)
      (nm : String) (colc : List Cell),
      post1002 names raw = some t →
      nm ∈ names.filter (fun n => !(n = "Route_ID" || n = "Route_Name" || n = "Group_Name")) →
      getColD raw nm = some colc →
      (nm, colc.map (fun x => PVal.q (coerceFComma x))) ∈ t) := by
  refine ⟨?_, ?_, ?_, ?_⟩
  · rcases hc with rfl | ⟨s, rfl, hs⟩
    · decide
    · simp [coerceIntFill0, hs, ratTrunc, PyFloat.zero]
  · rcases hc with rfl | ⟨s, rfl, hs⟩
    · rfl
    · simp [coerceFComma, hs]
  · intro raw nm cells hmem hnl
    have := List.mem_map_of_mem
      (f := fun (p : String × List Cell) =>
        if p.1 ∈ labels1001 then (p.1, p.2.map (fun c => PVal.s (c.map pyStrip)))
        else (p.1, p.2.map (fun c => PVal.i (coerceIntFill0 (c.map pyStrip))))) hmem
    simpa [convert1001, if_neg hnl] using this
  · intro names raw t nm colc hpost hnm hcol
    rcases h1 : getColD raw "Route_ID" with _ | rid0
    · simp [post1002, h1] at hpost
    rcases h2 : getColD raw "Group_Name" with _ | gn0
    · simp [post1002, h1, h2] at hpost
    simp only [post1002, h1, h2, Option.some.injEq] at hpost
    subst hpost
    refine List.mem_cons_of_mem _ (List.mem_cons_of_mem _ (List.mem_cons_of_mem _ ?_))
    exact List.mem_filterMap.mpr ⟨nm, hnm, by rw [hcol]; rfl⟩

/-! ## Claim C5: Total-row termination of row collection -/

theorem collect1001_passthru :
    ∀ (pre : List String) (total : String) (rest : List String),
      (∀ l ∈ pre, keeps1001 l) → pyContains total "Total" = true →
      collect1001 (pre ++ total :: rest) = pre.map pyRstrip ++ [pyRstrip total]
  | [], total, rest, _, htot => by simp [collect1001, htot]
  | l :: pre, total, rest, hpre, htot => by
      obtain ⟨h1, h2, h3, h4, h5, h6⟩ := hpre l (List.mem_cons_self l pre)
      have ih := collect1001_passthru pre total rest
        (fun x hx => hpre x (List.mem_cons_of_mem l hx)) htot
      simp [collect1001, h1, h2, h3, h4, h5, h6, ih]

theorem collect1201_passthru :
    ∀ (pre : List String) (total : String) (rest : List String),
      (∀ l ∈ pre, keeps1201 l) → pyStartsWith (pyStrip total) "Total" = true →
      collect1201 (pre ++ total :: rest) = pre.map pyRstrip
  | [], total, rest, _, htot => by simp [collect1201, htot]
  | l :: pre, total, rest, hpre, htot => by
      obtain ⟨h1, h2, h3, h4⟩ := hpre l (List.mem_cons_self l pre)
      have ih := collect1201_passthru pre total rest
        (fun x hx => hpre x (List.mem_cons_of_mem l hx)) htot
      simp [collect1201, h1, h2, h3, h4, ih]

/-- Claim C5 counterexample: table 12.01 uses the Total summary row as its
terminator but does not include it - the Total line of doc1201C appears in
no collected row, and the extracted table has a single row. -/
theorem C5_counterexample :
    collect1201 ["Boston         10", "Total          30"] = ["Boston         10"] ∧
    pyContains "Total          30" "Total" = true ∧
    ¬ pyRstrip "Total          30" ∈ collect1201 ["Boston         10", "Total          30"] ∧
    (extract1201 doc1201C "12.01" cat1201C).map (fun r => r.1.rowCount) = some 1 := by
  decide

/-- Claim C5 (amended): in the 9.01 / 10.01 / 10.03-04 / 10.05 families the
first line containing "Total" is included in the collected rows and
terminates collection; in 12.01 (stripped line starting with "Total") and
10.06 (line containing "Total") the line terminates collection but is
excluded; the 10.02 family has no summary terminator and passes any
non-structural line through. -/
theorem C5_total_terminator (pre : List String) (total : String) (rest : List String)
    (hpre1 : ∀ l ∈ pre, keeps1001 l) (hpre2 : ∀ l ∈ pre, keeps1201 l)
    (htot1 : pyContains total "Total" = true)
    (htot2 : pyStartsWith (pyStrip total) "Total" = true) :
    collect1001 (pre ++ total :: rest) = pre.map pyRstrip ++ [pyRstrip total] ∧
    collect1201 (pre ++ total :: rest) = pre.map pyRstrip ∧
    (∀ (l : String) (rs : List String), markerAny l = false →
      pyContains l "Program STOPS" = false → pyStrip l ≠ "" →
      fullMixRun (pyStrip l) = false → collect1002 (l :: rs) = l :: collect1002 rs) ∧
    (∀ (l : String) (rs : List String), pyContains l "Total" = true →
      collect1006 (l :: rs) = []) := by
  refine ⟨collect1001_passthru pre total rest hpre1 htot1,
          collect1201_passthru pre total rest hpre2 htot2,
          fun l rs g1 g2 g3 g4 => ?_, fun l rs g => ?_⟩
  · simp [collect1002, g1, g2, g3, g4]
  · simp [collect1006, g]

/-- Witness for C5_total_terminator at a concrete one-row body followed by
a Total line. -/
theorem C5_total_terminator_witness :
    collect1001 (["R1  5"] ++ "Total 10" :: ["junk"]) =
      ["R1  5"].map pyRstrip ++ [pyRstrip "Total 10"] ∧
    collect1201 (["R1  5"] ++ "Total 10" :: ["junk"]) = ["R1  5"].map pyRstrip ∧
    (∀ (l : String) (rs : List String), markerAny l = false →
      pyContains l "Program STOPS" = false → pyStrip l ≠ "" →
      fullMixRun (pyStrip l) = false → collect1002 (l :: rs) = l :: collect1002 rs) ∧
    (∀ (l : String) (rs : List String), pyContains l "Total" = true →
      collect1006 (l :: rs) = []) :=
  C5_total_terminator ["R1  5"] "Total 10" ["junk"] (by decide) (by decide)
    (by decide) (by decide)

/-! ## Claim C9: configuration failures are scoped to one table -/

/-- Claim C9: a missing catalog entry for a table yields only a no-method
diagnostic for that table_id, and an entry whose columns key is missing
makes its extractor return the empty table, logged and skipped; in both
cases the remaining tables of the run are processed exactly as if the
failing table had not been requested. -/
theorem C9_config_error_scoped
    (methods : String → Option ExtractFn) (w : LoadOutcome)
    (doc : List String) (al : String) (fc : Catalog)
    (tmiss tinc : String) (ts : List String)
    (e : CatalogEntry) (fn : String) (res : PTable × Meta)
    (hmiss : fc tmiss = none)
    (hinc : fc tinc = some e) (hcols : e.columns = none)
    (hfn : e.extractionFunction = some fn)
    (hm : methods fn = some extract1002)
    (hres : extract1002 doc tinc fc = some res) :
    runTables methods w doc al (some fc) (tmiss :: ts) =
      (runTables methods w doc al (some fc) ts).map
        (fun p => (RunEvent.noMethod tmiss :: p.1, p.2)) ∧
    res.1 = [] ∧
    runTables methods w doc al (some fc) (tinc :: ts) =
      (runTables methods w doc al (some fc) ts).map
        (fun p => (RunEvent.emptyResult tinc :: p.1, p.2)) := by
  have hempty : res.1 = [] := by
    rcases hscan : scanAnchor tinc anchor1002 doc with _ | ⟨startO, m⟩ <;>
      rw [extract1002, hscan] at hres
    · exact absurd hres (by simp)
    · cases startO with
      | none =>
          simp only [Option.some_bind, Option.some.injEq] at hres
          rw [← hres]
      | some start =>
          have hrc : resolveCols fc tinc = none := by
            simp [resolveCols, hinc, hcols]
          simp only [Option.some_bind, hrc, Option.some.injEq] at hres
          rw [← hres]
  refine ⟨?_, hempty, ?_⟩
  · simp only [runTables, getExtractionMethod, getTableFormatConfig, hmiss]
  · simp only [runTables, getExtractionMethod, getTableFormatConfig, hinc, hfn, hm, hres,
      hempty, PTable.isEmpty, PTable.rowCount]
    simp

/-- Witness for C9_config_error_scoped: catC9 lacks an entry for 8.88 and
holds a columns-less entry for 9.99 dispatched to the 10.02 extractor. -/
theorem C9_config_error_scoped_witness :
    runTables methodsC9 LoadOutcome.noPath [] "a" (some catC9) ("8.88" :: []) =
      (runTables methodsC9 LoadOutcome.noPath [] "a" (some catC9) []).map
        (fun p => (RunEvent.noMethod "8.88" :: p.1, p.2)) ∧
    (([], ({} : Meta)) : PTable × Meta).1 = [] ∧
    runTables methodsC9 LoadOutcome.noPath [] "a" (some catC9) ("9.99" :: []) =
      (runTables methodsC9 LoadOutcome.noPath [] "a" (some catC9) []).map
        (fun p => (RunEvent.emptyResult "9.99" :: p.1, p.2)) :=
  C9_config_error_scoped methodsC9 LoadOutcome.noPath [] "a" catC9 "8.88" "9.99" []
    ⟨some "fixed_width", some "_extract_table_10_02_from_prn", none⟩
    "_extract_table_10_02_from_prn" ([], {})
    (by decide) rfl rfl rfl rfl (by decide)

/-! ## Claim C10: the catalog cache is fixed by the first load -/

/-- Claim C10: the first call to the catalog loader fixes the mapping for
the rest of the process - once the cache holds a mapping, every later call
returns it unchanged whatever the configuration outcome; and when the
first load fails (no configured path, missing file or parse error) the
cached mapping is empty, so every later lookup through the cache finds no
entry even if a valid catalog would be available afterwards. -/
theorem C10_catalog_cache (w : LoadOutcome)
    (hw : w = LoadOutcome.noPath ∨ w = LoadOutcome.missingFile ∨ w = LoadOutcome.parseError) :
    (∀ (c : Catalog) (w' : LoadOutcome), getTableFormatConfig (some c) w' = (c, some c)) ∧
    getTableFormatConfig none w = (emptyCatalog, some emptyCatalog) ∧
    (∀ (w' : LoadOutcome) (tid : String),
      ((getTableFormatConfig ((getTableFormatConfig none w).2) w').1) tid = none) := by
  refine ⟨fun c w' => rfl, ?_, ?_⟩
  · rcases hw with rfl | rfl | rfl <;> rfl
  · intro w' tid
    rcases hw with rfl | rfl | rfl <;> rfl

/-- Witness for C10_catalog_cache at the no-configured-path outcome. -/
theorem C10_catalog_cache_witness :
    (∀ (c : Catalog) (w' : LoadOutcome), getTableFormatConfig (some c) w' = (c, some c)) ∧
    getTableFormatConfig none LoadOutcome.noPath = (emptyCatalog, some emptyCatalog) ∧
    (∀ (w' : LoadOutcome) (tid : String),
      ((getTableFormatConfig ((getTableFormatConfig none LoadOutcome.noPath).2) w').1) tid = none) :=
  C10_catalog_cache LoadOutcome.noPath (Or.inl rfl)

/-! ## Claim C8: column-count mismatch truncates, it does not invalidate -/

theorem foldl_max_ge_acc :
    ∀ (l : List Nat) (acc : Nat), acc ≤ l.foldl max acc
  | [], acc => Nat.le_refl acc
  | y :: l, acc => by
      rw [List.foldl_cons]
      exact Nat.le_trans (Nat.le_max_left acc y) (foldl_max_ge_acc l (max acc y))

theorem foldl_max_ge_mem :
    ∀ (l : List Nat) (acc x : Nat), x ∈ l → x ≤ l.foldl max acc
  | [], _, _, hx => absurd hx (List.not_mem_nil _)
  | y :: l, acc, x, hx => by
      rw [List.foldl_cons]
      rcases List.mem_cons.mp hx with rfl | hx'
      · exact Nat.le_trans (Nat.le_max_right acc x) (foldl_max_ge_acc l (max acc x))
      · exact foldl_max_ge_mem l (max acc y) x hx'

/-- Claim C8 counterexample: the station-group section of docStatC is
well-formed but its header names five columns while the data rows carry
four; extraction is not invalidated - it returns a non-empty one-row table
of four columns, which also differs from the resolved column-name count of
five. -/
theorem C8_counterexample :
    (extractStation docStatC "2.01").map (fun r => (PTable.colCount r.1, PTable.rowCount r.1)) =
      some (4, 1) ∧
    stationHeaders ["Group   WLK   KNR   PNR   ALL"] false = some ["WLK", "KNR", "PNR", "ALL"] ∧
    ("Origin_Group" :: ["WLK", "KNR", "PNR", "ALL"]).length = 5 ∧
    ((collectStationRows "2.01" (docStatC.drop 3)).map List.length).foldl max 0 = 4 ∧
    ¬ ((5 : Nat) = 4) ∧
    (extractStation docStatC "2.01").map (fun r => PTable.isEmpty r.1) = some false := by
  decide

/-- Claim C8 (amended): for a well-formed station-group section with at
least one parsed data row, extraction always returns a non-empty table
with one row per parsed source row; its column count is the minimum of the
materialized data width and the resolved column-name count, both truncated
to the shorter on a mismatch, which never invalidates the table. -/
theorem C8_station_mismatch (headers : List String) (parsed : List (List String))
    (hne : parsed ≠ [])
    (hrow : ∀ r ∈ parsed, r.headD "" ≠ "" ∧ r ≠ []) :
    PTable.rowCount (stationFinalize headers parsed) = parsed.length ∧
    PTable.colCount (stationFinalize headers parsed) =
      min ((parsed.map List.length).foldl max 0) (headers.length + 1) ∧
    PTable.isEmpty (stationFinalize headers parsed) = false := by
  set w := (parsed.map List.length).foldl max 0 with hw
  set fh : List String := "Origin_Group" :: headers with hfh
  have hw1 : 1 ≤ w := by
    obtain ⟨r0, rest, rfl⟩ : ∃ r0 rest, parsed = r0 :: rest := by
      cases hp : parsed with
      | nil => exact absurd hp hne
      | cons a b => exact ⟨a, b, rfl⟩
    have hr0 := (hrow r0 (List.mem_cons_self _ _)).2
    have hlen : 1 ≤ r0.length := by
      cases r0 with
      | nil => exact absurd rfl hr0
      | cons a b => simp
    calc 1 ≤ r0.length := hlen
      _ ≤ w := foldl_max_ge_mem _ 0 _ (List.mem_map_of_mem List.length (List.mem_cons_self _ _))
  have hm : (if w ≠ fh.length then min w fh.length else w) = min w (headers.length + 1) := by
    by_cases hor : w = fh.length
    · rw [if_neg (by simpa using hor)]
      rw [hor]
      simp [hfh]
    · rw [if_pos (by simpa using hor)]
      simp [hfh]
  set M := min w (headers.length + 1) with hM
  have hM1 : 1 ≤ M := by omega
  obtain ⟨k, hk⟩ : ∃ k, M = k + 1 := ⟨M - 1, by omega⟩
  have hfilter :
      (parsed.map (fun r => (List.range M).map (fun j => r.get? j))).filter
        (fun r => r.headD none ≠ some "") =
      parsed.map (fun r => (List.range M).map (fun j => r.get? j)) := by
    apply List.filter_eq_self.mpr
    intro r' hr'
    obtain ⟨r, hr, rfl⟩ := List.mem_map.mp hr'
    obtain ⟨a, b, rfl⟩ : ∃ a b, r = a :: b := by
      rcases hrow r hr with ⟨_, hnn⟩
      cases r with
      | nil => exact absurd rfl hnn
      | cons a b => exact ⟨a, b, rfl⟩
    have hne' : a ≠ "" := by simpa using (hrow _ hr).1
    rw [hk, List.range_succ_eq_map]
    simp [hne']
  simp only [stationFinalize]
  rw [← hw, ← hfh, hm, hfilter]
  refine ⟨?_, ?_, ?_⟩
  · rw [hk, List.range_succ_eq_map]
    simp [PTable.rowCount]
  · simp [PTable.colCount]
  · rw [PTable.isEmpty]
    rw [hk, List.range_succ_eq_map]
    simp [PTable.rowCount, hne]

/-- Witness for C8_station_mismatch at a parsed row of width four under a
five-name header. -/
theorem C8_station_mismatch_witness :
    PTable.rowCount (stationFinalize ["WLK", "KNR", "PNR", "ALL"] [["Bostn", "10", "20", "30"]]) =
      [["Bostn", "10", "20", "30"]].length ∧
    PTable.colCount (stationFinalize ["WLK", "KNR", "PNR", "ALL"] [["Bostn", "10", "20", "30"]]) =
      min (([["Bostn", "10", "20", "30"]].map List.length).foldl max 0)
        (["WLK", "KNR", "PNR", "ALL"].length + 1) ∧
    PTable.isEmpty (stationFinalize ["WLK", "KNR", "PNR", "ALL"] [["Bostn", "10", "20", "30"]]) =
      false :=
  C8_station_mismatch ["WLK", "KNR", "PNR", "ALL"] [["Bostn", "10", "20", "30"]]
    (by decide) (by decide)

/-! ## Claim C1: district tables are returned wide, not pivoted -/

theorem foldl_max_all :
    ∀ (l : List Nat) (n acc : Nat), (∀ x ∈ l, x = n) →
      l.foldl max acc = if l.isEmpty then acc else max acc n
  | [], _, _, _ => by simp
  | x :: l, n, acc, h => by
      have hx := h x (List.mem_cons_self x l)
      subst hx
      rw [List.foldl_cons,
          foldl_max_all l x (max acc x) (fun y hy => h y (List.mem_cons_of_mem x hy))]
      cases l with
      | nil => simp
      | cons y l => simp [Nat.max_assoc]

theorem getD_range_map {β : Type} (f : Nat → β) (n j : Nat) (d : β) (h : j < n) :
    ((List.range n).map f).getD j d = f j := by
  simp [List.getD_eq_getElem?_getD, List.getElem?_map, List.getElem?_range h]

theorem getD_take_lt {β : Type} (l : List β) (n j : Nat) (d : β) (h : j < n) :
    (l.take n).getD j d = l.getD j d := by
  simp [List.getD_eq_getElem?_getD, List.getElem?_take, h]

theorem getD_mem_drop_one {β : Type} (l : List β) (j : Nat) (d : β)
    (h1 : 1 ≤ j) (h2 : j < l.length) : l.getD j d ∈ l.drop 1 := by
  obtain ⟨j', rfl⟩ : ∃ j', j = 1 + j' := ⟨j - 1, by omega⟩
  have hlt : j' < (l.drop 1).length := by simp; omega
  have heq : (l.drop 1)[j'] = l[1 + j'] := List.getElem_drop l
  rw [List.getD_eq_getElem?_getD, List.getElem?_eq_getElem h2, Option.getD_some, ← heq]
  exact List.getElem_mem hlt

/-- Claim C1 (amended): the district extractor performs no wide-to-long
reshape: the output has one row per parsed source row and one column per
matrix column; the origin column keeps the row keys and every destination
column holds, in source order, the numeric coercion of exactly that
column's source cells, so each matrix cell appears exactly once and the
numeric mass is conserved. -/
theorem C1_district_wide (headers collected : List String) (t : PTable)
    (ht : districtMaterialize headers collected = some t)
    (hne : districtParsedRows collected ≠ [])
    (hrect : ∀ r ∈ districtParsedRows collected,
      r.length = ((districtParsedRows collected).headD []).length)
    (hfit : ((districtParsedRows collected).headD []).length ≤ headers.length)
    (hhead : headers.headD "" = "Origin_District")
    (hdup : ∀ nm ∈ headers.drop 1, nm ≠ "Origin_District") :
    t.rowCount = (districtParsedRows collected).length ∧
    t.colCount = ((districtParsedRows collected).headD []).length ∧
    t = (List.range ((districtParsedRows collected).headD []).length).map (fun j =>
      (headers.getD j "",
       (districtParsedRows collected).map (fun r =>
         if j = 0 then PVal.s (r.get? j)
         else PVal.i (coerceIntFill0NC (r.get? j))))) := by
  set parsed := districtParsedRows collected with hparsed
  set n0 := (parsed.headD []).length with hn0
  have hn0pos : 2 ≤ n0 := by
    obtain ⟨r0, rest, hcons⟩ : ∃ r0 rest, parsed = r0 :: rest := by
      cases hp : parsed with
      | nil => exact absurd hp hne
      | cons a b => exact ⟨a, b, rfl⟩
    have h0 : r0 ∈ parsed := by rw [hcons]; exact List.mem_cons_self _ _
    have hgt : 1 < r0.length := by
      have h0f : r0 ∈ (collected.map pyTokens).filter (fun p => decide (p.length > 1)) := h0
      have := (List.mem_filter.mp h0f).2
      simpa using this
    have hr0 : r0.length = n0 := hrect r0 h0
    omega
  have hmax : (parsed.map List.length).foldl max 0 = n0 := by
    rw [foldl_max_all (parsed.map List.length) n0 0
        (fun x hx => by
          obtain ⟨r, hr, rfl⟩ := List.mem_map.mp hx
          exact hrect r hr)]
    have hemp : (parsed.map List.length).isEmpty = false := by
      cases hp : parsed with
      | nil => exact absurd hp hne
      | cons a b => simp
    rw [hemp]
    simp
  have hmk : mkDataFrameRows parsed n0 =
      some (parsed.map (fun r => (List.range n0).map (fun j => r.get? j))) := by
    unfold mkDataFrameRows
    rw [if_pos hmax]
  have hfit' : ¬ headers.length < n0 := Nat.not_lt.mpr hfit
  simp only [districtMaterialize, ← hparsed, ← hn0, hne, hfit', if_false, if_neg, hmk,
    ite_false, Option.some.injEq] at ht
  subst ht
  have hcol0 : headers[0]?.getD "" = "Origin_District" := by
    cases headers with
    | nil => simp at hfit; omega
    | cons a l => simpa using hhead
  have hcolj : ∀ j, 1 ≤ j → j < n0 → ¬ headers[j]?.getD "" = "Origin_District" := by
    intro j h1 h2
    have hm := getD_mem_drop_one headers j "" h1 (by omega)
    rw [List.getD_eq_getElem?_getD] at hm
    exact hdup _ hm
  have hmain : ((List.range n0).map (fun j =>
      ((headers.take n0).getD j "",
       (parsed.map (fun r => (List.range n0).map (fun j' => r.get? j'))).map (fun r =>
         if (headers.take n0).getD j "" = "Origin_District" then PVal.s (r.getD j none)
         else PVal.i (coerceIntFill0NC (r.getD j none))))) : PTable) =
      (List.range n0).map (fun j =>
      (headers.getD j "",
       parsed.map (fun r =>
         if j = 0 then PVal.s (r.get? j)
         else PVal.i (coerceIntFill0NC (r.get? j))))) := by
    apply List.map_congr_left
    intro j hj
    have hjlt : j < n0 := List.mem_range.mp hj
    rw [getD_take_lt headers n0 j "" hjlt, List.map_map]
    refine congrArg _ ?_
    apply List.map_congr_left
    intro r hr
    have hget : ((List.range n0).map (fun j' => r.get? j')).getD j none = r.get? j :=
      getD_range_map (fun j' => r.get? j') n0 j none hjlt
    simp only [Function.comp_apply, hget]
    by_cases hj0 : j = 0
    · subst hj0
      simp [hcol0]
    · have h1 : 1 ≤ j := by omega
      simp [hcolj j h1 hjlt, hj0]
  rw [hmain]
  refine ⟨?_, ?_, rfl⟩
  · obtain ⟨m, hm⟩ : ∃ m, n0 = m + 1 := ⟨n0 - 1, by omega⟩
    rw [hm, List.range_succ_eq_map]
    simp [PTable.rowCount]
  · simp [PTable.colCount]

/-- Witness for C1_district_wide at the concrete 2x2 matrix of docDistC. -/
theorem C1_district_wide_witness :
    PTable.rowCount
      [("Origin_District", [PVal.s (some "1"), PVal.s (some "2")]),
       ("1", [PVal.i 10, PVal.i 30]),
       ("2", [PVal.i 20, PVal.i 40])] =
      (districtParsedRows (collectDistrict (docDistC.drop 3))).length ∧
    PTable.colCount
      [("Origin_District", [PVal.s (some "1"), PVal.s (some "2")]),
       ("1", [PVal.i 10, PVal.i 30]),
       ("2", [PVal.i 20, PVal.i 40])] =
      ((districtParsedRows (collectDistrict (docDistC.drop 3))).headD []).length ∧
    ([("Origin_District", [PVal.s (some "1"), PVal.s (some "2")]),
      ("1", [PVal.i 10, PVal.i 30]),
      ("2", [PVal.i 20, PVal.i 40])] : PTable) =
      (List.range ((districtParsedRows (collectDistrict (docDistC.drop 3))).headD []).length).map
        (fun j =>
          (["Origin_District", "1", "2"].getD j "",
           (districtParsedRows (collectDistrict (docDistC.drop 3))).map (fun r =>
             if j = 0 then PVal.s (r.get? j)
             else PVal.i (coerceIntFill0NC (r.get? j))))) :=
  C1_district_wide ["Origin_District", "1", "2"] (collectDistrict (docDistC.drop 3))
    [("Origin_District", [PVal.s (some "1"), PVal.s (some "2")]),
     ("1", [PVal.i 10, PVal.i 30]),
     ("2", [PVal.i 20, PVal.i 40])]
    (by decide) (by decide) (by decide) (by decide) (by decide) (by decide)

/-- Claim C1 counterexample: the district extractor returns the 2x2 matrix
of docDistC as a wide table of 2 rows, not the 2 x 2 = 4 long-format
records the claim requires. -/
theorem C1_counterexample :
    (extractDistrict docDistC "12.03").map (fun r => r.1.rowCount) = some 2 ∧
    (districtParsedRows (collectDistrict (docDistC.drop 3))).length = 2 ∧
    districtHeaders "Idist     1     2" = some ["Origin_District", "1", "2"] ∧
    ¬ (2 = 2 * 2) := by decide

/-! ## Claim C7: metadata overwrite order -/

theorem metaFold_noop (lines : List String) (i : Nat) :
    ∀ (os : List Nat) (m : Meta),
      (∀ o ∈ os, ∀ m', metaLineUpdate m' (lineAt lines i o) = some m') →
      os.foldl (metaStep lines i) (some m) = some m
  | [], _, _ => rfl
  | o :: os, m, h => by
      have step : metaStep lines i (some m) o = some m := by
        simp only [metaStep, Option.some_bind]
        by_cases ho : o ≤ i
        · rw [if_pos ho]
          exact h o (List.mem_cons_self o os) m
        · rw [if_neg ho]
      rw [List.foldl_cons, step]
      exact metaFold_noop lines i os m (fun o' ho' => h o' (List.mem_cons_of_mem o ho'))

/-- Claim C7 counterexample: two Run lines precede the marker; the line
closer to the marker reads NEAR, the farther one FAR, and the harvested
Run field holds FAR - the value from the farther line, not the closer
one. -/
theorem C7_counterexample :
    extractMetadata docMetaC 2 = some { runName := some "FAR" } ∧
    pyStrip (docMetaC.getD 1 "") = "Run: NEAR" ∧
    (some "FAR" : Option String) ≠ some "NEAR" := by decide

/-- Claim C7 (amended): the window is the nine offsets scanned from the
marker outwards, so when two window lines set the same field the one
scanned later - the line farther from the marker, earlier in the document
- wins; lines matching no pattern leave the block unchanged. -/
theorem C7_metadata_overwrite (lines : List String) (i : Nat)
    (os1 os2 os3 : List Nat) (a b : Nat) (vA vB : String)
    (hdec : metaOffsets = os1 ++ a :: (os2 ++ b :: os3))
    (ha : a ≤ i) (hb : b ≤ i)
    (hnoop : ∀ o ∈ os1 ++ (os2 ++ os3), ∀ m, metaLineUpdate m (lineAt lines i o) = some m)
    (hsetA : ∀ m, metaLineUpdate m (lineAt lines i a) = some { m with runName := some vA })
    (hsetB : ∀ m, metaLineUpdate m (lineAt lines i b) = some { m with runName := some vB }) :
    extractMetadata lines i = some { runName := some vB } := by
  have hstepA : metaStep lines i (some {}) a = some { runName := some vA } := by
    simp only [metaStep, Option.some_bind, if_pos ha]
    exact hsetA {}
  have hstepB : metaStep lines i (some { runName := some vA }) b =
      some { runName := some vB } := by
    simp only [metaStep, Option.some_bind, if_pos hb]
    exact hsetB { runName := some vA }
  have h1 : ∀ o ∈ os1, ∀ m, metaLineUpdate m (lineAt lines i o) = some m :=
    fun o ho => hnoop o (List.mem_append_left _ ho)
  have h2 : ∀ o ∈ os2, ∀ m, metaLineUpdate m (lineAt lines i o) = some m :=
    fun o ho => hnoop o (List.mem_append_right _ (List.mem_append_left _ ho))
  have h3 : ∀ o ∈ os3, ∀ m, metaLineUpdate m (lineAt lines i o) = some m :=
    fun o ho => hnoop o (List.mem_append_right _ (List.mem_append_right _ ho))
  unfold extractMetadata
  rw [hdec, List.foldl_append, metaFold_noop lines i os1 {} h1, List.foldl_cons,
      hstepA, List.foldl_append, metaFold_noop lines i os2 _ h2, List.foldl_cons,
      hstepB]
  exact metaFold_noop lines i os3 _ h3

/-- Witness for C7_metadata_overwrite on docMetaW: the Run setters sit at
offsets 2 (AAA, closer) and 5 (BBB, farther); the harvest returns BBB. -/
theorem C7_metadata_overwrite_witness :
    extractMetadata docMetaW 9 = some { runName := some "BBB" } :=
  C7_metadata_overwrite docMetaW 9 [1] [3, 4] [6, 7, 8, 9] 2 5 "AAA" "BBB"
    (by decide) (by omega) (by omega)
    (by
      intro o ho m
      have ho' : o ∈ [1, 3, 4, 6, 7, 8, 9] := by simpa using ho
      fin_cases ho' <;> rfl)
    (fun m => rfl) (fun m => rfl)

/-! ## Claim C6: marker matching is a substring search -/

theorem searchFrom_here (p : List Char → Bool) (l : List Char) (h : p l = true) :
    searchFrom p l = true := by
  cases l with
  | nil => simpa [searchFrom] using h
  | cons c r => simp [searchFrom, h]

theorem searchFrom_suffix (p : List Char → Bool) :
    ∀ (pre l : List Char), searchFrom p l = true → searchFrom p (pre ++ l) = true
  | [], _, h => h
  | c :: pre, l, h => by simp [searchFrom, searchFrom_suffix p pre l h]

theorem isPrefixOf_append_self (l r : List Char) : l.isPrefixOf (l ++ r) = true := by
  induction l with
  | nil => simp [List.isPrefixOf]
  | cons c cs ih => simp [List.isPrefixOf, ih]

theorem wsThen_accept (p : List Char → Bool) :
    ∀ (ws rest : List Char), ws ≠ [] → (∀ c ∈ ws, pySpace c = true) →
      p rest = true → wsThen p (ws ++ rest) = true
  | [], _, h, _, _ => absurd rfl h
  | [c], rest, _, hall, hp => by
      simp [wsThen, hall c (List.mem_singleton.mpr rfl), hp]
  | c :: c' :: ws, rest, _, hall, hp => by
      have ih := wsThen_accept p (c' :: ws) rest (by simp)
        (fun x hx => hall x (List.mem_cons_of_mem c hx)) hp
      have hc := hall c (List.mem_cons_self c _)
      show (pySpace c && (p (c' :: (ws ++ rest)) || wsThen p (c' :: (ws ++ rest)))) = true
      rw [hc]
      simp only [Bool.true_and, Bool.or_eq_true]
      right
      simpa using ih

/-- Claim C6 counterexample: with table_id 9.01 requested, the line
"Table 9.011 Stop listing" - whose identifier 9.011 has 9.01 as a proper
prefix - is accepted as the table marker. -/
theorem C6_counterexample :
    markerSearch "9.01" "Table 9.011 Stop listing" = true ∧
    "9.01".data.isPrefixOf "9.011".data = true ∧ "9.01" ≠ "9.011" := by decide

/-- Claim C6 (amended): the scanner is a plain regex search, so any line
embedding the word Table, whitespace and the requested identifier's
characters - whatever follows them - is accepted as that table's marker. -/
theorem C6_marker_substring (pre ws suf : List Char) (tid : String)
    (hws : ws ≠ []) (hall : ∀ c ∈ ws, pySpace c = true) :
    markerSearch tid ⟨pre ++ ("Table".data ++ (ws ++ (tid.data ++ suf)))⟩ = true := by
  unfold markerSearch
  apply searchFrom_suffix
  apply searchFrom_here
  have h5 : ("Table".data ++ (ws ++ (tid.data ++ suf))).drop 5 =
      ws ++ (tid.data ++ suf) := rfl
  have hA := isPrefixOf_append_self "Table".data (ws ++ (tid.data ++ suf))
  have hB := wsThen_accept (fun r => tid.data.isPrefixOf r) ws (tid.data ++ suf)
    hws hall (isPrefixOf_append_self tid.data suf)
  simp [h5, hA, hB]

/-- Witness for C6_marker_substring: a concrete embedding line. -/
theorem C6_marker_substring_witness :
    markerSearch "9.01" ⟨"x ".data ++ ("Table".data ++ ([' '] ++ ("9.01".data ++ "1 rest".data)))⟩ = true :=
  C6_marker_substring "x ".data [' '] "1 rest".data "9.01" (by decide) (by decide)

/-! ## Claim C4: Total-row normalization -/

theorem zip_get?_some {α β : Type} :
    ∀ (l1 : List α) (l2 : List β) (i : Nat) (a : α) (b : β),
      l1.get? i = some a → l2.get? i = some b → (l1.zip l2).get? i = some (a, b)
  | [], _, i, _, _, h, _ => by cases i <;> simp_all
  | _ :: _, [], i, _, _, _, h => by cases i <;> simp_all
  | x :: xs, y :: ys, 0, a, b, h1, h2 => by
      simp only [List.get?, Option.some.injEq] at h1 h2
      simp [List.zip_cons_cons, h1, h2]
  | x :: xs, y :: ys, i + 1, a, b, h1, h2 => by
      simp only [List.get?] at h1 h2
      simpa [List.zip_cons_cons] using zip_get?_some xs ys i a b h1 h2

theorem get?_isSome_of_lt {α : Type} (l : List α) (i : Nat) (h : i < l.length) :
    ∃ a, l.get? i = some a := by
  cases ha : l.get? i with
  | none => exact absurd (List.get?_eq_none.mp ha) (Nat.not_le_of_lt h)
  | some a => exact ⟨a, rfl⟩

/-- Claim C4 counterexample: in the 10.02 extraction of doc1002C the last
source row's Route_ID matches "total" case-insensitively, yet the output
Route_ID cell keeps the raw casing "TOTAL" instead of the literal
"Total". -/
theorem C4_counterexample :
    (extract1002 doc1002C "10.02" cat1002C).bind (fun r => getPCol r.1 "Route_ID") =
      some [PVal.s (some "R1"), PVal.s (some "R1"), PVal.s (some "TOTAL")] ∧
    isTotalCell (some "TOTAL") = true ∧
    PVal.s (some "TOTAL") ≠ PVal.s (some "Total") := by decide

/-- Claim C4 (amended): a case-insensitive total row is normalized only in
the designated label columns of each family: in 10.02 the synthesized
Route_Name cell becomes the literal "Total" while the Route_ID column is
exactly the forward-filled raw column, casing untouched; in the
10.01-style fixup, the trailing row's Route_Name and Route_ID cells are
both rewritten to "Total". -/
theorem C4_total_label (rid rname gname : List Cell) (i : Nat) (s : String)
    (hlen1 : rname.length = rid.length) (hlen2 : gname.length = rid.length)
    (hs : rid.get? i = some (some s)) (htot : pyStrip (pyLower s) = "total") :
    ((totalNormalize1002 rid rname gname).1).get? i = some (some "Total") ∧
    (∀ (names : List String) (raw : List (String × List Cell))
      (rid0 : List Cell) (t : PTable),
      getColD raw "Route_ID" = some rid0 → post1002 names raw = some t →
      getPCol t "Route_ID" = some ((fillRouteID1002 rid0).map PVal.s)) ∧
    (∀ (t : PTable) (nm : String) (cells : List PVal),
      lastRouteNameTotal t = true → (nm, cells) ∈ t →
      nm = "Route_Name" ∨ nm = "Route_ID" →
      (nm, setLast cells (PVal.s (some "Total"))) ∈ totalFix1001 t) := by
  have hilt : i < rid.length := by
    by_contra hle
    rw [List.get?_eq_none.mpr (Nat.le_of_not_lt hle)] at hs
    exact Option.noConfusion hs
  refine ⟨?_, ?_, ?_⟩
  · obtain ⟨rn, hrn⟩ := get?_isSome_of_lt rname i (by omega)
    obtain ⟨g, hg⟩ := get?_isSome_of_lt gname i (by omega)
    have htc : isTotalCell (some s) = true := by
      simp [isTotalCell, htot]
    have hr1 : ((rid.zip rname).map
        (fun p => if isTotalCell p.1 then some "Total" else p.2)).get? i =
        some (some "Total") := by
      simp only [List.get?_eq_getElem?, List.getElem?_map]
      rw [← List.get?_eq_getElem?, zip_get?_some rid rname i _ _ hs hrn]
      simp [htc]
    have hr2 := zip_get?_some gname _ i _ _ hg (by
      rw [List.get?_eq_getElem?] at hr1 ⊢; exact hr1)
    simp only [totalNormalize1002, List.get?_eq_getElem?, List.getElem?_map]
    rw [← List.get?_eq_getElem?, hr2]
    by_cases hgtc : isTotalCell g = true <;> simp [hgtc]
  · intro names raw rid0 t hrid hpost
    rcases h2 : getColD raw "Group_Name" with _ | gn0
    · simp [post1002, hrid, h2] at hpost
    simp only [post1002, hrid, h2, Option.some.injEq] at hpost
    subst hpost
    simp [getPCol, List.find?]
  · intro t nm cells hlast hmem hnm
    have hfix : totalFix1001 t =
        (if t.any (fun p => p.1 = "Route_ID") then
          t.map (fun p =>
            if p.1 = "Route_Name" || p.1 = "Route_ID" then
              (p.1, setLast p.2 (PVal.s (some "Total")))
            else p)
        else
          t.map (fun p =>
            if p.1 = "Route_Name" || p.1 = "Route_ID" then
              (p.1, setLast p.2 (PVal.s (some "Total")))
            else p) ++ [("Route_ID",
            List.replicate (t.rowCount - 1) (PVal.s none) ++ [PVal.s (some "Total")])]) := by
      rw [totalFix1001, if_pos hlast]
    have hmem1 : (nm, setLast cells (PVal.s (some "Total"))) ∈
        t.map (fun p =>
          if p.1 = "Route_Name" || p.1 = "Route_ID" then
            (p.1, setLast p.2 (PVal.s (some "Total")))
          else p) := by
      have := List.mem_map_of_mem
        (f := fun (p : String × List PVal) =>
          if p.1 = "Route_Name" || p.1 = "Route_ID" then
            (p.1, setLast p.2 (PVal.s (some "Total")))
          else p) hmem
      rcases hnm with rfl | rfl <;> simpa using this
    rw [hfix]
    by_cases hany : t.any (fun p => p.1 = "Route_ID") = true
    · simpa [hany] using hmem1
    · simp only [Bool.not_eq_true] at hany
      simp only [hany]
      exact List.mem_append_left _ hmem1

/-- Witness for C4_total_label at a concrete two-row 10.02 column set with
an upper-case TOTAL row. -/
theorem C4_total_label_witness :
    ((totalNormalize1002 [some "R1", some "TOTAL"] [none, none] [some "G1", none]).1).get? 1 =
      some (some "Total") ∧
    (∀ (names : List String) (raw : List (String × List Cell))
      (rid0 : List Cell) (t : PTable),
      getColD raw "Route_ID" = some rid0 → post1002 names raw = some t →
      getPCol t "Route_ID" = some ((fillRouteID1002 rid0).map PVal.s)) ∧
    (∀ (t : PTable) (nm : String) (cells : List PVal),
      lastRouteNameTotal t = true → (nm, cells) ∈ t →
      nm = "Route_Name" ∨ nm = "Route_ID" →
      (nm, setLast cells (PVal.s (some "Total"))) ∈ totalFix1001 t) :=
  C4_total_label [some "R1", some "TOTAL"] [none, none] [some "G1", none] 1 "TOTAL"
    (by decide) (by decide) (by decide) (by decide)

/-- Witness for C2_numeric_default at the unparseable cell "abc". -/
theorem C2_numeric_default_witness :
    coerceIntFill0 (some "abc") = 0 ∧ coerceFComma (some "abc") = none ∧
    (∀ (raw : List (String × List Cell)) (nm : String) (cells : List Cell),
      (nm, cells) ∈ raw → ¬ nm ∈ labels1001 →
      (nm, cells.map (fun x => PVal.i (coerceIntFill0 (x.map pyStrip)))) ∈ convert1001 raw) ∧
    (∀ (names : List String) (raw : List (String × List Cell)) (t : PTable)
      (nm : String) (colc : List Cell),
      post1002 names raw = some t →
      nm ∈ names.filter (fun n => !(n = "Route_ID" || n = "Route_Name" || n = "Group_Name")) →
      getColD raw nm = some colc →
      (nm, colc.map (fun x => PVal.q (coerceFComma x))) ∈ t) :=
  C2_numeric_default (some "abc") (Or.inr ⟨"abc", rfl, by decide⟩)

end Stops
